import Mathlib

namespace Retrotector

/-- Python scalar values as they occur in the Retrotector JSON fields that the
script inspects dynamically (booleans, strings, numbers, None). -/
inductive PyVal where
  | pybool (b : Bool)
  | pystr (s : String)
  | pyint (n : Int)
  | pynone
  deriving DecidableEq

/-- Python truthiness (`bool(val)`) for the modelled scalar values. -/
def pyTruthy : PyVal → Bool
  | .pybool b => b
  | .pystr s => s ≠ ""
  | .pyint n => n ≠ 0
  | .pynone => false

/-- Python `str.lower` on the ASCII strings the script compares against. -/
def pyLower (s : String) : String :=
  String.mk (s.data.map Char.toLower)

/-- Model of the helper `to_bool` in `parse_run_metadata`: a native boolean is
returned unchanged; a string is lowercased and compared against
"yes"/"true"/"1"; anything else is coerced through truthiness. -/
def to_bool : PyVal → Bool
  | .pybool b => b
  | .pystr s => pyLower s == "yes" || pyLower s == "true" || pyLower s == "1"
  | v => pyTruthy v

/-- Model of the call sites of `to_bool`, which read the field with
`footer.get(key, False)`: an absent field passes Python `False` to `to_bool`. -/
def to_bool_field (o : Option PyVal) : Bool :=
  to_bool (o.getD (.pybool false))

/-- Calendar instant as produced by the timestamp parser (the component view
of a Python `datetime` value). -/
structure PyDateTime where
  year : Nat
  month : Nat
  day : Nat
  hour : Nat
  minute : Nat
  second : Nat
  deriving DecidableEq

/-- Abbreviated weekday names matched by the `%a` directive. -/
def weekdayAbbrs : List String :=
  ["Mon", "Tue", "Wed", "Thu", "Fri", "Sat", "Sun"]

/-- Abbreviated month names matched by the `%b` directive. -/
def monthAbbrs : List String :=
  ["Jan", "Feb", "Mar", "Apr", "May", "Jun", "Jul", "Aug", "Sep", "Oct", "Nov", "Dec"]

/-- Case-insensitive literal match: consume `pat` from the front of the input
and return the remainder, as the ignore-case regex built by `strptime` does. -/
def matchCI : List Char → List Char → Option (List Char)
  | [], input => some input
  | _ :: _, [] => none
  | p :: ps, c :: cs => if c.toLower = p.toLower then matchCI ps cs else none

/-- Try each name in order (the alternation of the `strptime` regex for a name
directive); return the index of the first name that matches and the rest. -/
def matchNameAux : List String → Nat → List Char → Option (Nat × List Char)
  | [], _, _ => none
  | n :: ns, i, input =>
    match matchCI n.data input with
    | some rest => some (i, rest)
    | none => matchNameAux ns (i + 1) input

/-- Match one of a list of names at the front of the input. -/
def matchName (names : List String) (input : List Char) : Option (Nat × List Char) :=
  matchNameAux names 0 input

/-- Whitespace characters of the regex class used for blanks in the format. -/
def isWs (c : Char) : Bool :=
  c = ' ' || c = '\t' || c = '\n' || c = '\r' || c = '\x0b' || c = '\x0c'

/-- Require at least one whitespace character and skip the whole run (the
format's blank compiles to a one-or-more whitespace pattern). -/
def skipWs1 : List Char → Option (List Char)
  | c :: cs => if isWs c then some (cs.dropWhile isWs) else none
  | [] => none

/-- Numeric value of a decimal digit character. -/
def digitVal (c : Char) : Nat := c.toNat - 48

/-- Read one or two decimal digits (greedy), as the two-digit numeric
directives of `strptime` do. -/
def parse1or2 : List Char → Option (Nat × List Char)
  | [] => none
  | [c] => if c.isDigit then some (digitVal c, []) else none
  | c1 :: c2 :: rest =>
    if c1.isDigit then
      if c2.isDigit then some (digitVal c1 * 10 + digitVal c2, rest)
      else some (digitVal c1, c2 :: rest)
    else none

/-- Read exactly four decimal digits (the `%Y` directive). -/
def parse4 : List Char → Option (Nat × List Char)
  | c1 :: c2 :: c3 :: c4 :: rest =>
    if c1.isDigit && c2.isDigit && c3.isDigit && c4.isDigit then
      some (((digitVal c1 * 10 + digitVal c2) * 10 + digitVal c3) * 10 + digitVal c4, rest)
    else none
  | _ => none

/-- Match a single literal character, ignoring case. -/
def expectChar (c : Char) : List Char → Option (List Char)
  | x :: xs => if x.toLower = c.toLower then some xs else none
  | [] => none

/-- Gregorian leap-year test, as used by the datetime constructor. -/
def isLeap (y : Nat) : Bool :=
  (y % 4 = 0 && y % 100 ≠ 0) || y % 400 = 0

/-- Number of days of a month, as validated by the datetime constructor. -/
def daysInMonth (y m : Nat) : Nat :=
  if m = 2 then (if isLeap y then 29 else 28)
  else if m = 4 ∨ m = 6 ∨ m = 9 ∨ m = 11 then 30
  else 31

/-- The `%a %b %d ` section of the fixed format: weekday name (parsed but
otherwise ignored), month name (returned as a zero-based index), day. -/
def parseWdMonDay (l : List Char) : Option (Nat × Nat × List Char) :=
  (matchName weekdayAbbrs l).bind fun p1 =>
  (skipWs1 p1.2).bind fun r2 =>
  (matchName monthAbbrs r2).bind fun p2 =>
  (skipWs1 p2.2).bind fun r4 =>
  (parse1or2 r4).bind fun pd =>
  (skipWs1 pd.2).bind fun r6 =>
  some (p2.1, pd.1, r6)

/-- The `%H:%M:%S` section of the fixed format. -/
def parseClock (l : List Char) : Option (Nat × Nat × Nat × List Char) :=
  (parse1or2 l).bind fun ph =>
  (expectChar ':' ph.2).bind fun r2 =>
  (parse1or2 r2).bind fun pm =>
  (expectChar ':' pm.2).bind fun r4 =>
  (parse1or2 r4).bind fun ps =>
  some (ph.1, pm.1, ps.1, ps.2)

/-- The trailing literal GMT plus the four-digit year of the fixed format. -/
def parseGmtYear (l : List Char) : Option (Nat × List Char) :=
  (skipWs1 l).bind fun r1 =>
  (matchCI ("GMT").data r1).bind fun r2 =>
  (skipWs1 r2).bind fun r3 =>
  parse4 r3

/-- Validation performed by the datetime constructor on the parsed fields. -/
def dtValid (y m d h mi s : Nat) : Prop :=
  1 ≤ y ∧ y ≤ 9999 ∧ 1 ≤ d ∧ d ≤ daysInMonth y m ∧ h ≤ 23 ∧ mi ≤ 59 ∧ s ≤ 59

instance (y m d h mi s : Nat) : Decidable (dtValid y m d h mi s) := by
  unfold dtValid; infer_instance

/-- Modelled from the library routine used inside `parse_datetime`:
`datetime.strptime(s, "%a %b %d %H:%M:%S GMT %Y")`. The directives are matched
in sequence (weekday name, month name, day, hour, minute, second, the literal
GMT, four-digit year); the parsed weekday must be a valid name but is
otherwise ignored; the numeric fields are then validated as the datetime
constructor validates them, and any leftover input is a parse failure. -/
def strptimeFixed (s : String) : Option PyDateTime :=
  (parseWdMonDay s.data).bind fun md =>
  (parseClock md.2.2).bind fun cl =>
  (parseGmtYear cl.2.2.2).bind fun py =>
  if py.2 = [] ∧ dtValid py.1 (md.1 + 1) md.2.1 cl.1 cl.2.1 cl.2.2.1 then
    some ⟨py.1, md.1 + 1, md.2.1, cl.1, cl.2.1, cl.2.2.1⟩
  else none

/-- The exception view of the library call inside `parse_datetime`: a missing
value raises a TypeError, an unparseable string raises a ValueError. -/
def strptimeExc (v : Option String) : Except Unit PyDateTime :=
  match v with
  | none => .error ()
  | some s =>
    match strptimeFixed s with
    | some dt => .ok dt
    | none => .error ()

/-- Model of `parse_datetime`: the try/except wrapper that turns every failure
of the library call into the absent value `None`. -/
def parse_datetime (v : Option String) : Option PyDateTime :=
  match strptimeExc v with
  | .ok dt => some dt
  | .error _ => none

example : strptimeFixed ("Mon Aug 04 04:51:37 GMT 2025") =
    some ⟨2025, 8, 4, 4, 51, 37⟩ := by decide
example : strptimeFixed ("nonsense") = none := by decide

/-! Source-document model. Fields the script reads with `dict.get` are
`Option`-typed (absence is `none`); numeric JSON values are modelled over
`Int` (no claim depends on fractional parts, so `float(...)`/`int(...)`
coercions are identities over the present integral value). -/

/-- The `header` section, with the capitalised keys the script reads. -/
structure Header where
  Executor : Option String
  DNAFile : Option String
  Selected : Option String
  Database : Option String
  InputFile : Option String
  deriving DecidableEq

/-- The `footer` section, with the keys the script reads. -/
structure Footer where
  executer : Option String
  DNAFile : Option String
  Database : Option String
  execution_duration : Option Int
  SelectionThreshold : Option Int
  InputFile : Option String
  ImproveHitsMax : Option Int
  ConservationFactor : Option Int
  SubGeneHitsMax : Option Int
  ScriptPath : Option String
  MaxSubGeneSkip : Option Int
  Strand : Option String
  SDFactor : Option PyVal
  BrokenPasses : Option Int
  FitPuteins : Option String
  BrokenPenalty : Option Int
  FinalSelectionThreshold : Option Int
  KeepThreshold : Option Int
  FrameFactor : Option Int
  LengthBonus : Option Int
  ORFIDMinScore : Option Int
  MakeChainsFiles : Option String
  Debugging : Option String
  script_input : Option String
  run_datetime : Option String
  retrotector_version : Option String
  db_name : Option String
  db_last_modified_datetime : Option String
  deriving DecidableEq

/-- Python `a or b` over two possibly-absent strings (an empty string is
falsy, so it falls through to the second operand). -/
def pyOrOpt (a b : Option String) : Option String :=
  match a with
  | some s => if s = "" then b else some s
  | none => b

/-- Python `a or b` where the second operand is a plain (defaulted) string. -/
def pyOrD (a : Option String) (b : String) : String :=
  match a with
  | some s => if s = "" then b else s
  | none => b

/-- Row shape produced by `parse_run_metadata` for the run_metadata table. -/
structure RunMetadata where
  executer : Option String
  dna_file : Option String
  selected : Option String
  database : Option String
  execution_duration : Int
  selection_threshold : Int
  input_file : String
  improve_hits_max : Int
  conservation_factor : Int
  subgene_hits_max : Int
  script_path : String
  max_subgene_skip : Int
  strand : String
  sdfactor : Bool
  broken_passes : Int
  fit_puteins : Option String
  broken_penalty : Int
  final_selection_threshold : Int
  keep_threshold : Int
  frame_factor : Int
  length_bonus : Int
  orfid_min_score : Int
  make_chains_files : String
  debugging : Option String
  script_input : String
  run_datetime : Option PyDateTime
  retrotector_version : String
  db_name : String
  db_last_modified_datetime : Option PyDateTime
  deriving DecidableEq

/-- Model of `parse_run_metadata`: projects header and footer into the
run_metadata row, substituting the explicit defaults of the source. -/
def parse_run_metadata (h : Header) (f : Footer) : RunMetadata where
  executer := pyOrOpt f.executer h.Executor
  dna_file := pyOrOpt f.DNAFile h.DNAFile
  selected := h.Selected
  database := pyOrOpt f.Database h.Database
  execution_duration := f.execution_duration.getD 0
  selection_threshold := f.SelectionThreshold.getD 0
  input_file := pyOrD f.InputFile (h.InputFile.getD "")
  improve_hits_max := f.ImproveHitsMax.getD 0
  conservation_factor := f.ConservationFactor.getD 0
  subgene_hits_max := f.SubGeneHitsMax.getD 0
  script_path := f.ScriptPath.getD ""
  max_subgene_skip := f.MaxSubGeneSkip.getD 0
  strand := f.Strand.getD ""
  sdfactor := to_bool_field f.SDFactor
  broken_passes := f.BrokenPasses.getD 0
  fit_puteins := f.FitPuteins
  broken_penalty := f.BrokenPenalty.getD 0
  final_selection_threshold := f.FinalSelectionThreshold.getD 0
  keep_threshold := f.KeepThreshold.getD 0
  frame_factor := f.FrameFactor.getD 0
  length_bonus := f.LengthBonus.getD 0
  orfid_min_score := f.ORFIDMinScore.getD 0
  make_chains_files := f.MakeChainsFiles.getD ""
  debugging := f.Debugging
  script_input := f.script_input.getD ""
  run_datetime := parse_datetime f.run_datetime
  retrotector_version := f.retrotector_version.getD ""
  db_name := f.db_name.getD ""
  db_last_modified_datetime := parse_datetime f.db_last_modified_datetime

/-- An entry of the top-level `soloLTRs` sequence; keys as the script reads
them, with `init_idx`/`fin_idx` accessed by required subscript. -/
structure SoloLtrSrc where
  primary : Option Bool
  peak_loc : Option Int
  init_idx : Option Int
  fin_idx : Option Int
  adenylation_loc : Option Int
  adenylation_seq : Option String
  U5NN_score : Option Int
  U5NN_loc : Option Int
  GT_score : Option Int
  U3NN_score : Option Int
  U3NN_loc : Option Int
  TATAA_score : Option Int
  TATAA_loc : Option Int
  MEME50_score : Option Int
  MEME50_loc : Option Int
  Mot1_score : Option Int
  Mot1_loc : Option Int
  Mot2_score : Option Int
  Mot2_loc : Option Int
  Trans_score : Option Int
  CpG_score : Option Int
  Spl8_score : Option Int
  TSD5 : Option String
  TSD3 : Option String
  deriving DecidableEq

/-- An entry of a chain block's `LTRs` sequence (full LTR), keys as read. -/
structure FullLtrSrc where
  primary : Option Bool
  LTR_type : Option String
  factor_score : Option Int
  virus_genus : Option String
  init_idx : Option Int
  fin_idx : Option Int
  adenylation_loc : Option Int
  adenylation_seq : Option String
  U5NN_score : Option Int
  U5NN_idx : Option Int
  GTModifier_score : Option Int
  U3NN_score : Option Int
  U3NN_idx : Option Int
  TATAA_score : Option Int
  TATAA_idx : Option Int
  MEME50_score : Option Int
  MEME50_idx : Option Int
  Motifs1_score : Option Int
  Motifs1_idx : Option Int
  Motifs2_score : Option Int
  Motifs2_idx : Option Int
  Transsites_score : Option Int
  CpGModifier_score : Option Int
  Spl8Modifier_score : Option Int
  Limiters : Option String
  similarity_start : Option Int
  similarity_end : Option Int
  deriving DecidableEq

/-- The ltr-table row shape built by `parse_ltrs`, minus the transient
`herv_chain_index` tag (which `insert_ltrs` pops before insertion). -/
structure LtrRow where
  is_primary : Bool
  ltr_type : Option String
  factor_score : Option Int
  virus_genus : Option String
  peak_loc : Option Int
  init_idx : Int
  fin_idx : Int
  adenylation_loc : Option Int
  adenylation_seq : Option String
  u5nn_score : Option Int
  u5nn_idx : Option Int
  gtmodifier_score : Option Int
  u3nn_score : Option Int
  u3nn_idx : Option Int
  tataa_score : Option Int
  tataa_idx : Option Int
  meme50_score : Option Int
  meme50_idx : Option Int
  motifs1_score : Option Int
  motifs1_idx : Option Int
  motifs2_score : Option Int
  motifs2_idx : Option Int
  transsites_score : Option Int
  cpgmodifier_score : Option Int
  spl8modifier_score : Option Int
  limiters : Option String
  tsd5 : Option String
  tsd3 : Option String
  similarity_start : Option Int
  similarity_end : Option Int
  deriving DecidableEq

/-- A domain object nested under a subgene, keys as the script reads them in
`parse_subgenes_and_domains` (all read with `.get`). -/
structure DomainSrc where
  idx : Option Int
  type : Option String
  origin : Option String
  score : Option Int
  hotspot : Option Int
  frame : Option Int
  pos_init : Option Int
  pos_fin : Option Int
  match_input : Option String
  reference_match : Option String
  n_bases : Option Int
  deriving DecidableEq

/-- A subgene object of a chain block, with its nested domains. -/
structure SubgeneSrc where
  name : Option String
  type : Option String
  score : Option Int
  hotspot : Option Int
  domains : List DomainSrc
  deriving DecidableEq

/-- A motif object of one of the four per-category sequences. -/
structure MotifSrc where
  pos_init : Option Int
  pos_end : Option Int
  score : Option Int
  deriving DecidableEq

/-- One chain block of the top-level `pseuGID` sequence. -/
structure ChainBlock where
  chain_level : Option Int
  chain_start_idx : Option Int
  chain_end_idx : Option Int
  retrovirus_type : Option String
  score : Option Int
  type_of_chain : Option String
  integration_sites : Option String
  subgenes : List SubgeneSrc
  Slippery_motifs : List MotifSrc
  PseudoKnot_motifs : List MotifSrc
  SpliceAcceptor_motifs : List MotifSrc
  SpliceDonor_motifs : List MotifSrc
  LTRs : List FullLtrSrc
  deriving DecidableEq

/-- The whole source document. -/
structure Doc where
  header : Header
  footer : Footer
  soloLTRs : List SoloLtrSrc
  pseuGID : List ChainBlock
  deriving DecidableEq

/-- Errors raised by the modelled code paths. `keyError` is a Python KeyError
on a required document field; `resolutionError` is the KeyError raised by the
positional-index lookup in `insert_subgenes_domains` (the spec's
ResolutionError); `storeError` is an insert rejected by the store. -/
inductive PyExc where
  | keyError (key : String)
  | resolutionError (idx : Nat)
  | storeError
  deriving DecidableEq

/-- Mapping of one `soloLTRs` entry in `parse_ltrs`: `init_idx` and `fin_idx`
are required subscripts (KeyError when absent, in dict-literal order); solo
rows carry no chain tag, `ltr_type` is the literal solo, and the fields that
only exist for full LTRs are set to None. -/
def parseSoloLtr (e : SoloLtrSrc) : Except PyExc (Option Nat × LtrRow) :=
  match e.init_idx with
  | none => .error (.keyError ("init_idx"))
  | some ii =>
    match e.fin_idx with
    | none => .error (.keyError ("fin_idx"))
    | some fi => .ok (none,
      { is_primary := e.primary.getD false
        ltr_type := some ("solo")
        factor_score := none
        virus_genus := none
        peak_loc := e.peak_loc
        init_idx := ii
        fin_idx := fi
        adenylation_loc := e.adenylation_loc
        adenylation_seq := e.adenylation_seq
        u5nn_score := e.U5NN_score
        u5nn_idx := e.U5NN_loc
        gtmodifier_score := e.GT_score
        u3nn_score := e.U3NN_score
        u3nn_idx := e.U3NN_loc
        tataa_score := e.TATAA_score
        tataa_idx := e.TATAA_loc
        meme50_score := e.MEME50_score
        meme50_idx := e.MEME50_loc
        motifs1_score := e.Mot1_score
        motifs1_idx := e.Mot1_loc
        motifs2_score := e.Mot2_score
        motifs2_idx := e.Mot2_loc
        transsites_score := e.Trans_score
        cpgmodifier_score := e.CpG_score
        spl8modifier_score := e.Spl8_score
        limiters := none
        tsd5 := e.TSD5
        tsd3 := e.TSD3
        similarity_start := none
        similarity_end := none })

/-- Mapping of one full LTR of chain number `ci` in `parse_ltrs`: tagged with
its chain index; `peak_loc`, `tsd5`, `tsd3` are set to None. -/
def parseFullLtr (ci : Nat) (e : FullLtrSrc) : Except PyExc (Option Nat × LtrRow) :=
  match e.init_idx with
  | none => .error (.keyError ("init_idx"))
  | some ii =>
    match e.fin_idx with
    | none => .error (.keyError ("fin_idx"))
    | some fi => .ok (some ci,
      { is_primary := e.primary.getD false
        ltr_type := e.LTR_type
        factor_score := e.factor_score
        virus_genus := e.virus_genus
        peak_loc := none
        init_idx := ii
        fin_idx := fi
        adenylation_loc := e.adenylation_loc
        adenylation_seq := e.adenylation_seq
        u5nn_score := e.U5NN_score
        u5nn_idx := e.U5NN_idx
        gtmodifier_score := e.GTModifier_score
        u3nn_score := e.U3NN_score
        u3nn_idx := e.U3NN_idx
        tataa_score := e.TATAA_score
        tataa_idx := e.TATAA_idx
        meme50_score := e.MEME50_score
        meme50_idx := e.MEME50_idx
        motifs1_score := e.Motifs1_score
        motifs1_idx := e.Motifs1_idx
        motifs2_score := e.Motifs2_score
        motifs2_idx := e.Motifs2_idx
        transsites_score := e.Transsites_score
        cpgmodifier_score := e.CpGModifier_score
        spl8modifier_score := e.Spl8Modifier_score
        limiters := e.Limiters
        tsd5 := none
        tsd3 := none
        similarity_start := e.similarity_start
        similarity_end := e.similarity_end })

/-- The solo loop of `parse_ltrs`, in source order. -/
def parseSoloLtrs : List SoloLtrSrc → Except PyExc (List (Option Nat × LtrRow))
  | [] => .ok []
  | e :: es =>
    match parseSoloLtr e with
    | .error err => .error err
    | .ok r =>
      match parseSoloLtrs es with
      | .error err => .error err
      | .ok rs => .ok (r :: rs)

/-- One chain's inner loop over its `LTRs` in `parse_ltrs`. -/
def parseFullLtrsOf (ci : Nat) : List FullLtrSrc → Except PyExc (List (Option Nat × LtrRow))
  | [] => .ok []
  | e :: es =>
    match parseFullLtr ci e with
    | .error err => .error err
    | .ok r =>
      match parseFullLtrsOf ci es with
      | .error err => .error err
      | .ok rs => .ok (r :: rs)

/-- The enumerated outer loop of `parse_ltrs` over the chain blocks. -/
def parseChainsLtrs : Nat → List ChainBlock → Except PyExc (List (Option Nat × LtrRow))
  | _, [] => .ok []
  | ci, cb :: cbs =>
    match parseFullLtrsOf ci cb.LTRs with
    | .error err => .error err
    | .ok rs =>
      match parseChainsLtrs (ci + 1) cbs with
      | .error err => .error err
      | .ok rs2 => .ok (rs ++ rs2)

/-- Model of `parse_ltrs`: all solo LTRs from the document root, then the
full LTRs of every chain block, each tagged with its chain index. -/
def parse_ltrs (d : Doc) : Except PyExc (List (Option Nat × LtrRow)) :=
  match parseSoloLtrs d.soloLTRs with
  | .error err => .error err
  | .ok solos =>
    match parseChainsLtrs 0 d.pseuGID with
    | .error err => .error err
    | .ok fulls => .ok (solos ++ fulls)

/-- Chain metadata row shape for the herv_chain table. -/
structure HervChainMeta where
  chain_level : Int
  chain_start_idx : Int
  chain_end_idx : Int
  retrovirus_type : String
  score : Int
  type_of_chain : String
  integration_sites : Option String
  deriving DecidableEq

/-- Model of `extract_herv_chain_metadata`: the six leading fields are
required subscripts (KeyError when absent, evaluated in dict-literal order);
`integration_sites` is optional. -/
def extract_herv_chain_metadata (cb : ChainBlock) : Except PyExc HervChainMeta :=
  match cb.chain_level with
  | none => .error (.keyError ("chain_level"))
  | some lv =>
    match cb.chain_start_idx with
    | none => .error (.keyError ("chain_start_idx"))
    | some si =>
      match cb.chain_end_idx with
      | none => .error (.keyError ("chain_end_idx"))
      | some ei =>
        match cb.retrovirus_type with
        | none => .error (.keyError ("retrovirus_type"))
        | some rt =>
          match cb.score with
          | none => .error (.keyError ("score"))
          | some sc =>
            match cb.type_of_chain with
            | none => .error (.keyError ("type_of_chain"))
            | some tc => .ok ⟨lv, si, ei, rt, sc, tc, cb.integration_sites⟩

/-- A parsed subgene as produced by `parse_subgenes_and_domains`, carrying its
local positional index. -/
structure ParsedSubgene where
  subgene_index : Nat
  name : Option String
  type : Option String
  score : Option Int
  hotspot : Option Int
  deriving DecidableEq

/-- A parsed domain as produced by `parse_subgenes_and_domains`, linked to its
parent subgene by the parent's positional index. -/
structure ParsedDomain where
  subgene_index : Nat
  idx : Option Int
  type : Option String
  origin : Option String
  score : Option Int
  hotspot : Option Int
  frame : Option Int
  pos_init : Option Int
  pos_fin : Option Int
  match_input : Option String
  reference_match : Option String
  n_bases : Option Int
  deriving DecidableEq

/-- The subgene dictionary built for counter value `i`. -/
def parseSubgene (i : Nat) (s : SubgeneSrc) : ParsedSubgene :=
  ⟨i, s.name, s.type, s.score, s.hotspot⟩

/-- The domain dictionary built under the subgene with counter value `i`. -/
def parseDomain (i : Nat) (d : DomainSrc) : ParsedDomain :=
  ⟨i, d.idx, d.type, d.origin, d.score, d.hotspot, d.frame, d.pos_init, d.pos_fin,
   d.match_input, d.reference_match, d.n_bases⟩

/-- The loop of `parse_subgenes_and_domains` with the running local counter:
each subgene is appended with the current counter value, its domains are
appended tagged with the same value, and the counter then increments. -/
def parseSubgenesDomainsAux : Nat → List SubgeneSrc → List ParsedSubgene × List ParsedDomain
  | _, [] => ([], [])
  | i, s :: ss =>
    let rest := parseSubgenesDomainsAux (i + 1) ss
    (parseSubgene i s :: rest.1, s.domains.map (parseDomain i) ++ rest.2)

/-- Model of `parse_subgenes_and_domains`: the counter is local and starts at
0 for every chain block. -/
def parse_subgenes_and_domains (cb : ChainBlock) : List ParsedSubgene × List ParsedDomain :=
  parseSubgenesDomainsAux 0 cb.subgenes

/-- A motif row as produced by `parse_motifs`, tagged with its category. -/
structure MotifRow where
  type : String
  pos_init : Option Int
  pos_end : Option Int
  score : Option Int
  deriving DecidableEq

/-- The motif dictionary built for category tag `t`. -/
def motifRowOf (t : String) (m : MotifSrc) : MotifRow :=
  ⟨t, m.pos_init, m.pos_end, m.score⟩

/-- The fixed category list iterated by `parse_motifs`, in source order. -/
def motif_types : List String :=
  ["Slippery", "PseudoKnot", "SpliceAcceptor", "SpliceDonor"]

/-- Dispatch of the f-string key lookup `chain_block.get(key, [])` for
the four category keys. -/
def motifListFor (cb : ChainBlock) (t : String) : List MotifSrc :=
  if t = "Slippery" then cb.Slippery_motifs
  else if t = "PseudoKnot" then cb.PseudoKnot_motifs
  else if t = "SpliceAcceptor" then cb.SpliceAcceptor_motifs
  else if t = "SpliceDonor" then cb.SpliceDonor_motifs
  else []

/-- The nested loop of `parse_motifs` over the remaining category names. -/
def parseMotifsLoop (cb : ChainBlock) : List String → List MotifRow
  | [] => []
  | t :: ts => (motifListFor cb t).map (motifRowOf t) ++ parseMotifsLoop cb ts

/-- Model of `parse_motifs`: one flat list, outer loop over the fixed
category order, inner loop in source order, each entry tagged. -/
def parse_motifs (cb : ChainBlock) : List MotifRow :=
  parseMotifsLoop cb motif_types

/-! Store model. The store is a transactional engine: `execute` adds a row to
the connection's uncommitted work and returns a generated identifier,
`conn.commit()` makes all uncommitted work durable. A failure oracle
(`failAt`) makes the insert whose ordinal equals it raise a store error, so
failing runs can be examined; `failAt = none` is a store that accepts
everything. -/

/-- A subgenes-table row (positional index stripped, chain key attached). -/
structure SubgeneRow where
  herv_chain_id : Nat
  name : Option String
  type : Option String
  score : Option Int
  hotspot : Option Int
  deriving DecidableEq

/-- A domains-table row (positional index replaced by the resolved
persisted subgene identifier). -/
structure DomainRow where
  subgene_id : Nat
  idx : Option Int
  type : Option String
  origin : Option String
  score : Option Int
  hotspot : Option Int
  frame : Option Int
  pos_init : Option Int
  pos_fin : Option Int
  match_input : Option String
  reference_match : Option String
  n_bases : Option Int
  deriving DecidableEq

/-- The six destination tables. Identifier-returning tables pair each row
with its generated identifier; `herv_chain` also records its run foreign key,
`motifs` and `ltr` their chain foreign key. -/
structure Tables where
  run_metadata : List (Nat × RunMetadata)
  herv_chain : List (Nat × Nat × HervChainMeta)
  subgenes : List (Nat × SubgeneRow)
  domains : List DomainRow
  motifs : List (Nat × MotifRow)
  ltr : List (Nat × LtrRow)
  deriving DecidableEq

/-- The empty table set. -/
def emptyTables : Tables := ⟨[], [], [], [], [], []⟩

/-- Row-wise concatenation of table sets (commit appends uncommitted work). -/
def appendTables (t u : Tables) : Tables :=
  ⟨t.run_metadata ++ u.run_metadata, t.herv_chain ++ u.herv_chain,
   t.subgenes ++ u.subgenes, t.domains ++ u.domains,
   t.motifs ++ u.motifs, t.ltr ++ u.ltr⟩

/-- Connection state: durable rows, uncommitted rows, the next generated
identifier, the ordinal of the next insert, and the failure oracle. -/
structure DB where
  committed : Tables
  pending : Tables
  nextId : Nat
  opCount : Nat
  failAt : Option Nat
  deriving DecidableEq

/-- One `cur.execute` of an INSERT: fails if the oracle says so, otherwise
adds the row (given the fresh identifier) to the uncommitted work and returns
that identifier. -/
def execInsert (db : DB) (upd : Tables → Nat → Tables) : Except (PyExc × DB) (Nat × DB) :=
  if db.failAt = some db.opCount then .error (.storeError, db)
  else
    .ok (db.nextId,
      { db with
          pending := upd db.pending db.nextId
          nextId := db.nextId + 1
          opCount := db.opCount + 1 })

/-- Model of `conn.commit()`. -/
def commitDB (db : DB) : DB :=
  { db with committed := appendTables db.committed db.pending, pending := emptyTables }

/-- Model of `insert_run_metadata`: one INSERT RETURNING id, then commit,
then return the generated identifier. -/
def insert_run_metadata (db : DB) (md : RunMetadata) : Except (PyExc × DB) (Nat × DB) :=
  match execInsert db (fun t i => { t with run_metadata := t.run_metadata ++ [(i, md)] }) with
  | .error e => .error e
  | .ok (id, db1) => .ok (id, commitDB db1)

/-- Model of `insert_herv_chain`: the run foreign key is merged into the
entry, one INSERT RETURNING id, commit, return the identifier. -/
def insert_herv_chain (db : DB) (meta : HervChainMeta) (runId : Nat) : Except (PyExc × DB) (Nat × DB) :=
  match execInsert db (fun t i => { t with herv_chain := t.herv_chain ++ [(i, runId, meta)] }) with
  | .error e => .error e
  | .ok (id, db1) => .ok (id, commitDB db1)

/-- The subgenes-table row built in `insert_subgenes_domains`: positional
index popped, chain foreign key attached. -/
def subgeneRowOf (cid : Nat) (s : ParsedSubgene) : SubgeneRow :=
  ⟨cid, s.name, s.type, s.score, s.hotspot⟩

/-- The domains-table row built in `insert_subgenes_domains` once the parent
identifier is resolved. -/
def domainRowWith (sid : Nat) (d : ParsedDomain) : DomainRow :=
  ⟨sid, d.idx, d.type, d.origin, d.score, d.hotspot, d.frame, d.pos_init, d.pos_fin,
   d.match_input, d.reference_match, d.n_bases⟩

/-- The subgene loop of `insert_subgenes_domains`: inserts each subgene row
and records the positional-index-to-identifier mapping (newest entry first,
matching last-write-wins dictionary assignment). -/
def insertSubgenesLoop (cid : Nat) : List ParsedSubgene → DB → List (Nat × Nat) →
    Except (PyExc × DB) (List (Nat × Nat) × DB)
  | [], db, m => .ok (m, db)
  | s :: ss, db, m =>
    match execInsert db (fun t i => { t with subgenes := t.subgenes ++ [(i, subgeneRowOf cid s)] }) with
    | .error e => .error e
    | .ok (sid, db1) => insertSubgenesLoop cid ss db1 ((s.subgene_index, sid) :: m)

/-- Python dictionary lookup over the index map: first (most recent) binding
of the key wins, matching last-write-wins dictionary assignment. -/
def lookupIdx : List (Nat × Nat) → Nat → Option Nat
  | [], _ => none
  | (k, v) :: m, q => if q = k then some v else lookupIdx m q

/-- The domain loop of `insert_subgenes_domains`: pops the positional index,
resolves it through the mapping (KeyError when unassigned: the resolution
error), and inserts the row. -/
def insertDomainsLoop : List ParsedDomain → DB → List (Nat × Nat) → Except (PyExc × DB) DB
  | [], db, _ => .ok db
  | d :: ds, db, m =>
    match lookupIdx m d.subgene_index with
    | none => .error (.resolutionError d.subgene_index, db)
    | some sid =>
      match execInsert db (fun t _ => { t with domains := t.domains ++ [domainRowWith sid d] }) with
      | .error e => .error e
      | .ok (_, db1) => insertDomainsLoop ds db1 m

/-- Model of `insert_subgenes_domains`: all subgenes, then all domains, then
one commit for the whole batch. -/
def insert_subgenes_domains (db : DB) (subs : List ParsedSubgene) (doms : List ParsedDomain)
    (cid : Nat) : Except (PyExc × DB) DB :=
  match insertSubgenesLoop cid subs db [] with
  | .error e => .error e
  | .ok (m, db1) =>
    match insertDomainsLoop doms db1 m with
    | .error e => .error e
    | .ok db2 => .ok (commitDB db2)

/-- The loop of `insert_motifs`: each motif row with the chain key merged. -/
def insertMotifsLoop (cid : Nat) : List MotifRow → DB → Except (PyExc × DB) DB
  | [], db => .ok db
  | mrow :: ms, db =>
    match execInsert db (fun t _ => { t with motifs := t.motifs ++ [(cid, mrow)] }) with
    | .error e => .error e
    | .ok (_, db1) => insertMotifsLoop cid ms db1

/-- Model of `insert_motifs`: the loop, then one commit. -/
def insert_motifs (db : DB) (ms : List MotifRow) (cid : Nat) : Except (PyExc × DB) DB :=
  match insertMotifsLoop cid ms db with
  | .error e => .error e
  | .ok db1 => .ok (commitDB db1)

/-- The loop of `insert_ltrs`: the transient chain tag is popped and the
given chain key is attached to every row; the returned identifier is fetched
but discarded. -/
def insertLtrsLoop (cid : Nat) : List (Option Nat × LtrRow) → DB → Except (PyExc × DB) DB
  | [], db => .ok db
  | r :: rs, db =>
    match execInsert db (fun t _ => { t with ltr := t.ltr ++ [(cid, r.2)] }) with
    | .error e => .error e
    | .ok (_, db1) => insertLtrsLoop cid rs db1

/-- Model of `insert_ltrs`: the loop, then one commit. -/
def insert_ltrs (db : DB) (rows : List (Option Nat × LtrRow)) (cid : Nat) : Except (PyExc × DB) DB :=
  match insertLtrsLoop cid rows db with
  | .error e => .error e
  | .ok db1 => .ok (commitDB db1)

/-- The body of the chain loop of `parse_and_load_retroctector`: chain
metadata and insert, subgenes and domains, motifs, and then the whole
document's LTR set linked to this chain's identifier. -/
def processChain (db : DB) (d : Doc) (runId : Nat) (cb : ChainBlock) : Except (PyExc × DB) DB :=
  match extract_herv_chain_metadata cb with
  | .error e => .error (e, db)
  | .ok meta =>
    match insert_herv_chain db meta runId with
    | .error e => .error e
    | .ok (cid, db1) =>
      match insert_subgenes_domains db1 (parse_subgenes_and_domains cb).1
          (parse_subgenes_and_domains cb).2 cid with
      | .error e => .error e
      | .ok db2 =>
        match insert_motifs db2 (parse_motifs cb) cid with
        | .error e => .error e
        | .ok db3 =>
          match parse_ltrs d with
          | .error e => .error (e, db3)
          | .ok ltrRows => insert_ltrs db3 ltrRows cid

/-- The chain loop of `parse_and_load_retroctector` in source order. -/
def processChains (d : Doc) (runId : Nat) : List ChainBlock → DB → Except (PyExc × DB) DB
  | [], db => .ok db
  | cb :: cbs, db =>
    match processChain db d runId cb with
    | .error e => .error e
    | .ok db1 => processChains d runId cbs db1

/-- Model of `parse_and_load_retroctector`: run metadata first, then every
chain block. -/
def parse_and_load_retroctector (d : Doc) (db : DB) : Except (PyExc × DB) DB :=
  match insert_run_metadata db (parse_run_metadata d.header d.footer) with
  | .error e => .error e
  | .ok (runId, db1) => processChains d runId d.pseuGID db1

/-- Fresh connection over an empty store with a given failure oracle. -/
def initDB (fa : Option Nat) : DB :=
  ⟨emptyTables, emptyTables, 0, 0, fa⟩

/-! Model of `main`. Outcomes of the external calls in the try block are an
environment: argument parsing (raising SystemExit on failure, which is not an
Exception and so is not caught), connecting, reading the input document.
The `conn_params` dictionary literal in the source is itself malformed
(its port entry has no value), so the module as committed does not even
parse; the model below gives `main` the benefit of that slip being fixed and
follows the try/except/finally control flow as written: `conn` is a local
name first bound by the connect call, so when `parse_args` or the connect
call raises, the `finally` block's test of `conn` raises UnboundLocalError,
which escapes `main` in place of any pending exception. -/

/-- Status lines and the collapsed error line printed by `main`. -/
inductive MainEvent where
  | loadingLine
  | connectedLine
  | errorLine
  | closedLine
  deriving DecidableEq

/-- An exception escaping `main` uncaught: the `finally` block's read of the
never-bound local `conn`. -/
inductive EscExc where
  | unboundLocalConn
  deriving DecidableEq

/-- External outcomes for one invocation of the command. -/
structure MainEnv where
  argsOk : Bool
  connectOk : Bool
  readOk : Bool
  doc : Doc
  failAt : Option Nat
  deriving DecidableEq

/-- What one invocation leaves behind: the printed lines, an exception that
escaped the process uncaught (if any), and whether the connection was
closed. -/
structure MainOutcome where
  printed : List MainEvent
  uncaught : Option EscExc
  connClosed : Bool
  deriving DecidableEq

/-- Model of `main`: the try body runs until the first failing step; an
Exception is swallowed into the single error line; the finally block closes
the connection when `conn` is bound, and raises UnboundLocalError when it is
not. -/
def mainModel (env : MainEnv) : MainOutcome :=
  if env.argsOk = false then
    ⟨[], some .unboundLocalConn, false⟩
  else if env.connectOk = false then
    ⟨[.loadingLine, .errorLine], some .unboundLocalConn, false⟩
  else if env.readOk = false then
    ⟨[.loadingLine, .connectedLine, .errorLine, .closedLine], none, true⟩
  else
    match parse_and_load_retroctector env.doc (initDB env.failAt) with
    | .ok _ => ⟨[.loadingLine, .connectedLine, .closedLine], none, true⟩
    | .error _ => ⟨[.loadingLine, .connectedLine, .errorLine, .closedLine], none, true⟩

/-- The i-th subgene row of a batch, paired with the identifier the store
generates for it: the i-th subgene inserted gets identifier `base + i`. -/
def assignedSubgeneRows (cid base : Nat) : List ParsedSubgene → List (Nat × SubgeneRow)
  | [] => []
  | s :: ss => (base, subgeneRowOf cid s) :: assignedSubgeneRows cid (base + 1) ss

/-- The index map as the subgene loop leaves it: bindings pushed newest
first, the i-th subgene's positional index bound to `base + i`. -/
def revAssignMap (base : Nat) : List ParsedSubgene → List (Nat × Nat) → List (Nat × Nat)
  | [], m => m
  | s :: ss, m => revAssignMap (base + 1) ss ((s.subgene_index, base) :: m)

/-- A domains-table row built straight from the source domain object with a
given resolved parent identifier. -/
def domainRowFromSrc (sid : Nat) (d : DomainSrc) : DomainRow :=
  ⟨sid, d.idx, d.type, d.origin, d.score, d.hotspot, d.frame, d.pos_init, d.pos_fin,
   d.match_input, d.reference_match, d.n_bases⟩

/-- The domain rows the loop inserts, with each parent index resolved through
the map. -/
def resolvedDomainRows (m : List (Nat × Nat)) : List ParsedDomain → List DomainRow
  | [] => []
  | d :: ds => domainRowWith ((lookupIdx m d.subgene_index).getD 0) d :: resolvedDomainRows m ds

/-- The domain rows demanded by the source document: every domain of the i-th
source subgene of the chain carries that subgene's persisted identifier
`base + i` — the identifier of its direct ancestor, never of a sibling. -/
def expectedDomainRowsAux (base : Nat) : List SubgeneSrc → List DomainRow
  | [] => []
  | s :: ss => s.domains.map (domainRowFromSrc base) ++ expectedDomainRowsAux (base + 1) ss

/-- The n copies of the parsed LTR set, one per chain identifier, each row
stripped of its transient tag and attached to that chain. -/
def ltrCopies (ltrRows : List (Option Nat × LtrRow)) : List Nat → List (Nat × LtrRow)
  | [] => []
  | cid :: cids => ltrRows.map (fun r => (cid, r.2)) ++ ltrCopies ltrRows cids

/-- Componentwise prefix order on table sets: everything durable in the first
state is still durable, unchanged and in place, in the second. -/
def TablesLE (t u : Tables) : Prop :=
  t.run_metadata <+: u.run_metadata ∧ t.herv_chain <+: u.herv_chain ∧
    t.subgenes <+: u.subgenes ∧ t.domains <+: u.domains ∧
    t.motifs <+: u.motifs ∧ t.ltr <+: u.ltr

/-- The connection state a call leaves behind, whether it returns or raises. -/
def resultDB : Except (PyExc × DB) DB → DB
  | .ok db => db
  | .error e => e.2

/-- The connection state a value-returning call leaves behind. -/
def resultDBP {α : Type} : Except (PyExc × DB) (α × DB) → DB
  | .ok p => p.2
  | .error e => e.2

/-- A header with every optional field absent. -/
def emptyHeader : Header := ⟨none, none, none, none, none⟩

/-- A footer with every optional field absent. -/
def emptyFooter : Footer :=
  ⟨none, none, none, none, none, none, none, none, none, none, none, none, none, none,
   none, none, none, none, none, none, none, none, none, none, none, none, none, none⟩

/-- A document with no solo LTRs and no chain blocks. -/
def emptyDoc : Doc := ⟨emptyHeader, emptyFooter, [], []⟩

/-- Success view of a fallible step. -/
def exceptOk {ε α : Type} : Except ε α → Bool
  | .ok _ => true
  | .error _ => false

/-- The fields a solo LTR entry must carry (read by required subscript). -/
def soloLtrRequiredOk (e : SoloLtrSrc) : Bool :=
  e.init_idx.isSome && e.fin_idx.isSome

/-- The fields a full LTR entry must carry (read by required subscript). -/
def fullLtrRequiredOk (e : FullLtrSrc) : Bool :=
  e.init_idx.isSome && e.fin_idx.isSome

/-- All LTR entries of the document carry their required fields. -/
def docLtrsRequiredOk (d : Doc) : Bool :=
  d.soloLTRs.all soloLtrRequiredOk &&
    d.pseuGID.all (fun cb => cb.LTRs.all fullLtrRequiredOk)

/-- The six chain-metadata fields read by required subscript. -/
def chainRequiredOk (cb : ChainBlock) : Bool :=
  cb.chain_level.isSome && cb.chain_start_idx.isSome && cb.chain_end_idx.isSome &&
    cb.retrovirus_type.isSome && cb.score.isSome && cb.type_of_chain.isSome

/-! Characterisation lemmas for the store layer. -/

@[simp] theorem commitDB_committed (db : DB) :
    (commitDB db).committed = appendTables db.committed db.pending := rfl

@[simp] theorem commitDB_pending (db : DB) : (commitDB db).pending = emptyTables := rfl

@[simp] theorem commitDB_nextId (db : DB) : (commitDB db).nextId = db.nextId := rfl

@[simp] theorem commitDB_opCount (db : DB) : (commitDB db).opCount = db.opCount := rfl

@[simp] theorem commitDB_failAt (db : DB) : (commitDB db).failAt = db.failAt := rfl

@[simp] theorem appendTables_emptyTables (t : Tables) : appendTables t emptyTables = t := by
  simp [appendTables, emptyTables]

theorem execInsert_ok (db : DB) (upd : Tables → Nat → Tables) (hf : db.failAt = none) :
    execInsert db upd = .ok (db.nextId,
      { db with
          pending := upd db.pending db.nextId
          nextId := db.nextId + 1
          opCount := db.opCount + 1 }) := by
  simp [execInsert, hf]

theorem insertSubgenesLoop_eq (cid : Nat) (subs : List ParsedSubgene) :
    ∀ (db : DB) (m : List (Nat × Nat)), db.failAt = none →
    insertSubgenesLoop cid subs db m = .ok (revAssignMap db.nextId subs m,
      { db with
          pending := { db.pending with
            subgenes := db.pending.subgenes ++ assignedSubgeneRows cid db.nextId subs }
          nextId := db.nextId + subs.length
          opCount := db.opCount + subs.length }) := by
  induction subs with
  | nil =>
    intro db m hf
    simp [insertSubgenesLoop, assignedSubgeneRows, revAssignMap]
  | cons s ss ih =>
    intro db m hf
    simp only [insertSubgenesLoop, execInsert_ok _ _ hf]
    rw [ih]
    · simp only [revAssignMap, assignedSubgeneRows]
      simp [List.append_assoc]
      omega
    · exact hf

theorem insertDomainsLoop_eq (doms : List ParsedDomain) :
    ∀ (db : DB) (m : List (Nat × Nat)), db.failAt = none →
    (∀ d ∈ doms, (lookupIdx m d.subgene_index).isSome = true) →
    insertDomainsLoop doms db m = .ok
      { db with
          pending := { db.pending with
            domains := db.pending.domains ++ resolvedDomainRows m doms }
          nextId := db.nextId + doms.length
          opCount := db.opCount + doms.length } := by
  induction doms with
  | nil =>
    intro db m hf hres
    simp [insertDomainsLoop, resolvedDomainRows]
  | cons d ds ih =>
    intro db m hf hres
    obtain ⟨sid, hsid⟩ := Option.isSome_iff_exists.mp (hres d (List.mem_cons_self d ds))
    simp only [insertDomainsLoop, hsid, execInsert_ok _ _ hf]
    rw [ih]
    · simp only [resolvedDomainRows, hsid, Option.getD_some]
      simp [List.append_assoc]
      omega
    · exact hf
    · intro d1 hd1
      exact hres d1 (List.mem_cons_of_mem d hd1)

theorem insertMotifsLoop_eq (cid : Nat) (ms : List MotifRow) :
    ∀ (db : DB), db.failAt = none →
    insertMotifsLoop cid ms db = .ok
      { db with
          pending := { db.pending with
            motifs := db.pending.motifs ++ ms.map (fun r => (cid, r)) }
          nextId := db.nextId + ms.length
          opCount := db.opCount + ms.length } := by
  induction ms with
  | nil =>
    intro db hf
    simp [insertMotifsLoop]
  | cons mr ms ih =>
    intro db hf
    simp only [insertMotifsLoop, execInsert_ok _ _ hf]
    rw [ih]
    · simp [List.append_assoc]
      omega
    · exact hf

theorem insertLtrsLoop_eq (cid : Nat) (rows : List (Option Nat × LtrRow)) :
    ∀ (db : DB), db.failAt = none →
    insertLtrsLoop cid rows db = .ok
      { db with
          pending := { db.pending with
            ltr := db.pending.ltr ++ rows.map (fun r => (cid, r.2)) }
          nextId := db.nextId + rows.length
          opCount := db.opCount + rows.length } := by
  induction rows with
  | nil =>
    intro db hf
    simp [insertLtrsLoop]
  | cons r rows ih =>
    intro db hf
    simp only [insertLtrsLoop, execInsert_ok _ _ hf]
    rw [ih]
    · simp [List.append_assoc]
      omega
    · exact hf

theorem insert_run_metadata_eq (db : DB) (md : RunMetadata) (hf : db.failAt = none)
    (hp : db.pending = emptyTables) :
    insert_run_metadata db md = .ok (db.nextId,
      { committed := { db.committed with
          run_metadata := db.committed.run_metadata ++ [(db.nextId, md)] }
        pending := emptyTables
        nextId := db.nextId + 1
        opCount := db.opCount + 1
        failAt := none }) := by
  simp [insert_run_metadata, execInsert_ok _ _ hf, commitDB, hp, appendTables, emptyTables, hf]

theorem insert_herv_chain_eq (db : DB) (meta : HervChainMeta) (runId : Nat)
    (hf : db.failAt = none) (hp : db.pending = emptyTables) :
    insert_herv_chain db meta runId = .ok (db.nextId,
      { committed := { db.committed with
          herv_chain := db.committed.herv_chain ++ [(db.nextId, runId, meta)] }
        pending := emptyTables
        nextId := db.nextId + 1
        opCount := db.opCount + 1
        failAt := none }) := by
  simp [insert_herv_chain, execInsert_ok _ _ hf, commitDB, hp, appendTables, emptyTables, hf]

theorem insert_subgenes_domains_eq (db : DB) (subs : List ParsedSubgene)
    (doms : List ParsedDomain) (cid : Nat) (hf : db.failAt = none)
    (hp : db.pending = emptyTables)
    (hres : ∀ d ∈ doms,
      (lookupIdx (revAssignMap db.nextId subs []) d.subgene_index).isSome = true) :
    insert_subgenes_domains db subs doms cid = .ok
      { committed := { db.committed with
          subgenes := db.committed.subgenes ++ assignedSubgeneRows cid db.nextId subs
          domains := db.committed.domains ++
            resolvedDomainRows (revAssignMap db.nextId subs []) doms }
        pending := emptyTables
        nextId := db.nextId + subs.length + doms.length
        opCount := db.opCount + subs.length + doms.length
        failAt := none } := by
  simp only [insert_subgenes_domains, insertSubgenesLoop_eq cid subs db [] hf]
  rw [insertDomainsLoop_eq]
  · simp [commitDB, hp, appendTables, emptyTables, hf]
  · exact hf
  · exact hres

theorem insert_motifs_eq (db : DB) (ms : List MotifRow) (cid : Nat)
    (hf : db.failAt = none) (hp : db.pending = emptyTables) :
    insert_motifs db ms cid = .ok
      { committed := { db.committed with
          motifs := db.committed.motifs ++ ms.map (fun r => (cid, r)) }
        pending := emptyTables
        nextId := db.nextId + ms.length
        opCount := db.opCount + ms.length
        failAt := none } := by
  simp only [insert_motifs, insertMotifsLoop_eq cid ms db hf]
  simp [commitDB, hp, appendTables, emptyTables, hf]

theorem insert_ltrs_eq (db : DB) (rows : List (Option Nat × LtrRow)) (cid : Nat)
    (hf : db.failAt = none) (hp : db.pending = emptyTables) :
    insert_ltrs db rows cid = .ok
      { committed := { db.committed with
          ltr := db.committed.ltr ++ rows.map (fun r => (cid, r.2)) }
        pending := emptyTables
        nextId := db.nextId + rows.length
        opCount := db.opCount + rows.length
        failAt := none } := by
  simp only [insert_ltrs, insertLtrsLoop_eq cid rows db hf]
  simp [commitDB, hp, appendTables, emptyTables, hf]

theorem parseSubgenesDomainsAux_fst_length (ss : List SubgeneSrc) : ∀ c,
    (parseSubgenesDomainsAux c ss).1.length = ss.length := by
  induction ss with
  | nil => intro c; rfl
  | cons s ss ih =>
    intro c
    simp [parseSubgenesDomainsAux, ih]

theorem parseSubgenesDomainsAux_fst_get (ss : List SubgeneSrc) :
    ∀ c i (h : i < (parseSubgenesDomainsAux c ss).1.length),
    ((parseSubgenesDomainsAux c ss).1.get ⟨i, h⟩).subgene_index = c + i := by
  induction ss with
  | nil =>
    intro c i h
    simp [parseSubgenesDomainsAux] at h
  | cons s ss ih =>
    intro c i h
    cases i with
    | zero => rfl
    | succ i =>
      have := ih (c + 1) i (by
        have hl := parseSubgenesDomainsAux_fst_length ss (c + 1)
        have hl2 := parseSubgenesDomainsAux_fst_length (s :: ss) c
        simp [parseSubgenesDomainsAux] at h ⊢
        omega)
      simpa [parseSubgenesDomainsAux, Nat.add_assoc, Nat.add_comm, Nat.add_left_comm] using this

theorem parseSubgenesDomainsAux_snd_mem (ss : List SubgeneSrc) : ∀ c d,
    d ∈ (parseSubgenesDomainsAux c ss).2 → ∃ j, j < ss.length ∧ d.subgene_index = c + j := by
  induction ss with
  | nil =>
    intro c d hd
    simp [parseSubgenesDomainsAux] at hd
  | cons s ss ih =>
    intro c d hd
    simp only [parseSubgenesDomainsAux, List.mem_append, List.mem_map] at hd
    rcases hd with ⟨d0, _, rfl⟩ | hd
    · exact ⟨0, by simp, rfl⟩
    · obtain ⟨j, hj, hidx⟩ := ih (c + 1) d hd
      exact ⟨j + 1, by simp; omega, by omega⟩

theorem lookupIdx_revAssignMap_skip (subs : List ParsedSubgene) : ∀ b m k,
    (∀ s ∈ subs, s.subgene_index ≠ k) →
    lookupIdx (revAssignMap b subs m) k = lookupIdx m k := by
  induction subs with
  | nil => intro b m k _; rfl
  | cons s ss ih =>
    intro b m k hne
    simp only [revAssignMap]
    rw [ih (b + 1) _ k (fun s1 hs1 => hne s1 (List.mem_cons_of_mem s hs1))]
    have hk : k ≠ s.subgene_index := fun h => hne s (List.mem_cons_self s ss) h.symm
    simp [lookupIdx, hk]

theorem lookupIdx_revAssignMap_isSome (subs : List ParsedSubgene) : ∀ b m k,
    ((∃ s ∈ subs, s.subgene_index = k) ∨ (lookupIdx m k).isSome = true) →
    (lookupIdx (revAssignMap b subs m) k).isSome = true := by
  induction subs with
  | nil =>
    intro b m k h
    rcases h with ⟨s, hs, _⟩ | h
    · simp at hs
    · exact h
  | cons s ss ih =>
    intro b m k h
    simp only [revAssignMap]
    apply ih (b + 1)
    rcases h with ⟨s1, hs1, hidx⟩ | h
    · rcases List.mem_cons.mp hs1 with rfl | hs1
      · right; simp [lookupIdx, hidx.symm]
      · exact .inl ⟨s1, hs1, hidx⟩
    · right
      by_cases hk : k = s.subgene_index <;> simp [lookupIdx, hk, h]

theorem lookupIdx_revAssignMap_get (subs : List ParsedSubgene) : ∀ c b m,
    (∀ i (h : i < subs.length), (subs.get ⟨i, h⟩).subgene_index = c + i) →
    ∀ j, j < subs.length → lookupIdx (revAssignMap b subs m) (c + j) = some (b + j) := by
  induction subs with
  | nil =>
    intro c b m _ j hj
    simp at hj
  | cons s ss ih =>
    intro c b m hidx j hj
    have h0 : s.subgene_index = c := by
      have := hidx 0 (by simp)
      simpa using this
    have hss : ∀ i (h : i < ss.length), (ss.get ⟨i, h⟩).subgene_index = (c + 1) + i := by
      intro i h
      have := hidx (i + 1) (by simp; omega)
      simp only [List.get_cons_succ] at this
      omega
    cases j with
    | zero =>
      simp only [revAssignMap, Nat.add_zero]
      rw [lookupIdx_revAssignMap_skip]
      · simp [lookupIdx, h0]
      · intro s1 hs1
        obtain ⟨⟨i, hi⟩, rfl⟩ := List.mem_iff_get.mp hs1
        rw [hss i hi]
        omega
    | succ j =>
      have heq1 : c + (j + 1) = (c + 1) + j := by omega
      have heq2 : b + (j + 1) = (b + 1) + j := by omega
      rw [heq1, heq2]
      simp only [revAssignMap]
      exact ih (c + 1) (b + 1) _ hss j (by simp at hj; omega)

theorem resolvedDomainRows_append (m : List (Nat × Nat)) (a b : List ParsedDomain) :
    resolvedDomainRows m (a ++ b) = resolvedDomainRows m a ++ resolvedDomainRows m b := by
  induction a with
  | nil => rfl
  | cons d ds ih => simp [resolvedDomainRows, ih]

theorem resolvedDomainRows_map_parseDomain (m : List (Nat × Nat)) (c sid : Nat)
    (l : List DomainSrc) (h : lookupIdx m c = some sid) :
    resolvedDomainRows m (l.map (parseDomain c)) = l.map (domainRowFromSrc sid) := by
  induction l with
  | nil => rfl
  | cons d ds ih =>
    simp only [List.map_cons, resolvedDomainRows, ih]
    have : (parseDomain c d).subgene_index = c := rfl
    rw [this, h]
    rfl

theorem resolved_eq_expected (ss : List SubgeneSrc) : ∀ c base (M : List (Nat × Nat)),
    (∀ j, j < ss.length → lookupIdx M (c + j) = some (base + j)) →
    resolvedDomainRows M (parseSubgenesDomainsAux c ss).2 = expectedDomainRowsAux base ss := by
  induction ss with
  | nil => intro c base M _; rfl
  | cons s ss ih =>
    intro c base M hM
    simp only [parseSubgenesDomainsAux, expectedDomainRowsAux, resolvedDomainRows_append]
    have h0 : lookupIdx M c = some base := by
      have := hM 0 (by simp)
      simpa using this
    rw [resolvedDomainRows_map_parseDomain M c base s.domains h0]
    rw [ih (c + 1) (base + 1) M]
    intro j hj
    have heq1 : (c + 1) + j = c + (j + 1) := by omega
    have heq2 : (base + 1) + j = base + (j + 1) := by omega
    rw [heq1, heq2]
    exact hM (j + 1) (by simp; omega)

theorem insert_subgenes_domains_isOk (db : DB) (subs : List ParsedSubgene)
    (doms : List ParsedDomain) (cid : Nat) (hf : db.failAt = none)
    (hres : ∀ d ∈ doms,
      (lookupIdx (revAssignMap db.nextId subs []) d.subgene_index).isSome = true) :
    exceptOk (insert_subgenes_domains db subs doms cid) = true := by
  simp only [insert_subgenes_domains, insertSubgenesLoop_eq cid subs db [] hf]
  rw [insertDomainsLoop_eq]
  · rfl
  · exact hf
  · exact hres

theorem insertDomainsLoop_err (doms : List ParsedDomain) : ∀ (db : DB) m,
    db.failAt = none →
    (∃ d ∈ doms, lookupIdx m d.subgene_index = none) →
    ∃ idx db1, insertDomainsLoop doms db m = .error (.resolutionError idx, db1) ∧
      lookupIdx m idx = none := by
  induction doms with
  | nil =>
    intro db m hf hbad
    simp at hbad
  | cons d ds ih =>
    intro db m hf hbad
    cases hl : lookupIdx m d.subgene_index with
    | none =>
      exact ⟨d.subgene_index, db, by simp [insertDomainsLoop, hl], hl⟩
    | some sid =>
      simp only [insertDomainsLoop, hl, execInsert_ok _ _ hf]
      apply ih
      · exact hf
      · obtain ⟨d0, hd0, hnone⟩ := hbad
        rcases List.mem_cons.mp hd0 with rfl | hd0
        · rw [hl] at hnone; exact absurd hnone (by simp)
        · exact ⟨d0, hd0, hnone⟩

theorem TablesLE_refl (t : Tables) : TablesLE t t :=
  ⟨List.prefix_refl _, List.prefix_refl _, List.prefix_refl _,
   List.prefix_refl _, List.prefix_refl _, List.prefix_refl _⟩

theorem TablesLE_trans {a b c : Tables} (h1 : TablesLE a b) (h2 : TablesLE b c) :
    TablesLE a c :=
  ⟨h1.1.trans h2.1, h1.2.1.trans h2.2.1, h1.2.2.1.trans h2.2.2.1,
   h1.2.2.2.1.trans h2.2.2.2.1, h1.2.2.2.2.1.trans h2.2.2.2.2.1,
   h1.2.2.2.2.2.trans h2.2.2.2.2.2⟩

theorem TablesLE_append (t u : Tables) : TablesLE t (appendTables t u) :=
  ⟨List.prefix_append _ _, List.prefix_append _ _, List.prefix_append _ _,
   List.prefix_append _ _, List.prefix_append _ _, List.prefix_append _ _⟩

theorem insertSubgenesLoop_committed (cid : Nat) (subs : List ParsedSubgene) :
    ∀ (db : DB) m, (resultDBP (insertSubgenesLoop cid subs db m)).committed = db.committed := by
  induction subs with
  | nil => intro db m; rfl
  | cons s ss ih =>
    intro db m
    by_cases h : db.failAt = some db.opCount
    · simp [insertSubgenesLoop, execInsert, h, resultDBP]
    · simp only [insertSubgenesLoop, execInsert, h, if_false, if_neg h]
      exact ih _ _

theorem insertDomainsLoop_committed (doms : List ParsedDomain) :
    ∀ (db : DB) m, (resultDB (insertDomainsLoop doms db m)).committed = db.committed := by
  induction doms with
  | nil => intro db m; rfl
  | cons d ds ih =>
    intro db m
    cases hl : lookupIdx m d.subgene_index with
    | none => simp [insertDomainsLoop, hl, resultDB]
    | some sid =>
      by_cases h : db.failAt = some db.opCount
      · simp [insertDomainsLoop, hl, execInsert, h, resultDB]
      · simp only [insertDomainsLoop, hl, execInsert, if_neg h]
        exact ih _ _

theorem insertMotifsLoop_committed (cid : Nat) (ms : List MotifRow) :
    ∀ (db : DB), (resultDB (insertMotifsLoop cid ms db)).committed = db.committed := by
  induction ms with
  | nil => intro db; rfl
  | cons mr ms ih =>
    intro db
    by_cases h : db.failAt = some db.opCount
    · simp [insertMotifsLoop, execInsert, h, resultDB]
    · simp only [insertMotifsLoop, execInsert, if_neg h]
      exact ih _

theorem insertLtrsLoop_committed (cid : Nat) (rows : List (Option Nat × LtrRow)) :
    ∀ (db : DB), (resultDB (insertLtrsLoop cid rows db)).committed = db.committed := by
  induction rows with
  | nil => intro db; rfl
  | cons r rows ih =>
    intro db
    by_cases h : db.failAt = some db.opCount
    · simp [insertLtrsLoop, execInsert, h, resultDB]
    · simp only [insertLtrsLoop, execInsert, if_neg h]
      exact ih _

theorem insert_subgenes_domains_err_committed (db : DB) (subs : List ParsedSubgene)
    (doms : List ParsedDomain) (cid : Nat) (e : PyExc) (db1 : DB)
    (h : insert_subgenes_domains db subs doms cid = .error (e, db1)) :
    db1.committed = db.committed := by
  unfold insert_subgenes_domains at h
  cases hs : insertSubgenesLoop cid subs db [] with
  | error e2 =>
    rw [hs] at h
    have hc := insertSubgenesLoop_committed cid subs db []
    rw [hs] at hc
    cases h
    exact hc
  | ok p =>
    obtain ⟨m, dbA⟩ := p
    rw [hs] at h
    dsimp only at h
    have hcA := insertSubgenesLoop_committed cid subs db []
    rw [hs] at hcA
    cases hd : insertDomainsLoop doms dbA m with
    | error e2 =>
      rw [hd] at h
      have hcB := insertDomainsLoop_committed doms dbA m
      rw [hd] at hcB
      cases h
      exact hcB.trans hcA
    | ok db2 =>
      rw [hd] at h
      exact absurd h (by simp)

theorem insert_subgenes_domains_ok_state (db : DB) (subs : List ParsedSubgene)
    (doms : List ParsedDomain) (cid : Nat) (db1 : DB)
    (h : insert_subgenes_domains db subs doms cid = .ok db1) :
    db1.pending = emptyTables ∧ TablesLE db.committed db1.committed := by
  unfold insert_subgenes_domains at h
  cases hs : insertSubgenesLoop cid subs db [] with
  | error e2 =>
    rw [hs] at h
    exact absurd h (by simp)
  | ok p =>
    obtain ⟨m, dbA⟩ := p
    rw [hs] at h
    dsimp only at h
    have hcA := insertSubgenesLoop_committed cid subs db []
    rw [hs] at hcA
    cases hd : insertDomainsLoop doms dbA m with
    | error e2 =>
      rw [hd] at h
      exact absurd h (by simp)
    | ok db2 =>
      rw [hd] at h
      have hcB := insertDomainsLoop_committed doms dbA m
      rw [hd] at hcB
      dsimp only [resultDB] at hcB
      dsimp only [resultDBP] at hcA
      cases h
      refine ⟨rfl, ?_⟩
      simp only [commitDB_committed]
      rw [hcB, hcA]
      exact TablesLE_append _ _

theorem insert_motifs_ok_state (db : DB) (ms : List MotifRow) (cid : Nat) (db1 : DB)
    (h : insert_motifs db ms cid = .ok db1) :
    db1.pending = emptyTables ∧ TablesLE db.committed db1.committed := by
  unfold insert_motifs at h
  cases hs : insertMotifsLoop cid ms db with
  | error e2 =>
    rw [hs] at h
    exact absurd h (by simp)
  | ok db2 =>
    rw [hs] at h
    have hc := insertMotifsLoop_committed cid ms db
    rw [hs] at hc
    dsimp only [resultDB] at hc
    cases h
    refine ⟨rfl, ?_⟩
    simp only [commitDB_committed]
    rw [hc]
    exact TablesLE_append _ _

theorem insert_run_metadata_mono (db : DB) (md : RunMetadata) :
    TablesLE db.committed (resultDBP (insert_run_metadata db md)).committed := by
  by_cases h : db.failAt = some db.opCount
  · simp [insert_run_metadata, execInsert, h, resultDBP]
    exact TablesLE_refl _
  · simp [insert_run_metadata, execInsert, h, resultDBP]
    exact TablesLE_append _ _

theorem insert_herv_chain_mono (db : DB) (meta : HervChainMeta) (runId : Nat) :
    TablesLE db.committed (resultDBP (insert_herv_chain db meta runId)).committed := by
  by_cases h : db.failAt = some db.opCount
  · simp [insert_herv_chain, execInsert, h, resultDBP]
    exact TablesLE_refl _
  · simp [insert_herv_chain, execInsert, h, resultDBP]
    exact TablesLE_append _ _

theorem insert_subgenes_domains_mono (db : DB) (subs : List ParsedSubgene)
    (doms : List ParsedDomain) (cid : Nat) :
    TablesLE db.committed (resultDB (insert_subgenes_domains db subs doms cid)).committed := by
  cases h : insert_subgenes_domains db subs doms cid with
  | error e =>
    obtain ⟨e1, db1⟩ := e
    have hco := insert_subgenes_domains_err_committed db subs doms cid e1 db1 h
    have : TablesLE db.committed db1.committed := by
      rw [hco]; exact TablesLE_refl _
    exact this
  | ok db1 =>
    have := (insert_subgenes_domains_ok_state db subs doms cid db1 h).2
    exact this

theorem insert_motifs_mono (db : DB) (ms : List MotifRow) (cid : Nat) :
    TablesLE db.committed (resultDB (insert_motifs db ms cid)).committed := by
  cases h : insert_motifs db ms cid with
  | error e =>
    obtain ⟨e1, db1⟩ := e
    unfold insert_motifs at h
    cases hs : insertMotifsLoop cid ms db with
    | error e2 =>
      rw [hs] at h
      have hc := insertMotifsLoop_committed cid ms db
      rw [hs] at hc
      dsimp only [resultDB] at hc
      cases h
      have : TablesLE db.committed db1.committed := by
        rw [hc]; exact TablesLE_refl _
      exact this
    | ok db2 =>
      rw [hs] at h
      exact absurd h (by simp)
  | ok db1 =>
    have := (insert_motifs_ok_state db ms cid db1 h).2
    exact this

theorem insert_ltrs_mono (db : DB) (rows : List (Option Nat × LtrRow)) (cid : Nat) :
    TablesLE db.committed (resultDB (insert_ltrs db rows cid)).committed := by
  cases h : insert_ltrs db rows cid with
  | error e =>
    obtain ⟨e1, db1⟩ := e
    unfold insert_ltrs at h
    cases hs : insertLtrsLoop cid rows db with
    | error e2 =>
      rw [hs] at h
      have hc := insertLtrsLoop_committed cid rows db
      rw [hs] at hc
      dsimp only [resultDB] at hc
      cases h
      have : TablesLE db.committed db1.committed := by
        rw [hc]; exact TablesLE_refl _
      exact this
    | ok db2 =>
      rw [hs] at h
      exact absurd h (by simp)
  | ok db1 =>
    unfold insert_ltrs at h
    cases hs : insertLtrsLoop cid rows db with
    | error e2 =>
      rw [hs] at h
      exact absurd h (by simp)
    | ok db2 =>
      rw [hs] at h
      have hc := insertLtrsLoop_committed cid rows db
      rw [hs] at hc
      dsimp only [resultDB] at hc
      cases h
      have : TablesLE db.committed (commitDB db2).committed := by
        simp only [commitDB_committed]
        rw [hc]
        exact TablesLE_append _ _
      exact this

theorem processChain_mono (db : DB) (d : Doc) (runId : Nat) (cb : ChainBlock) :
    TablesLE db.committed (resultDB (processChain db d runId cb)).committed := by
  unfold processChain
  split
  · exact TablesLE_refl _
  · rename_i meta hmeta
    split
    · rename_i e hh
      have := insert_herv_chain_mono db meta runId
      rw [hh] at this
      exact this
    · rename_i p cid dbA hh
      have h1 : TablesLE db.committed dbA.committed := by
        have := insert_herv_chain_mono db meta runId
        rw [hh] at this
        exact this
      split
      · rename_i e hsd
        have := insert_subgenes_domains_mono dbA (parse_subgenes_and_domains cb).1
          (parse_subgenes_and_domains cb).2 cid
        rw [hsd] at this
        exact TablesLE_trans h1 this
      · rename_i dbB hsd
        have h2 : TablesLE db.committed dbB.committed := by
          have := insert_subgenes_domains_mono dbA (parse_subgenes_and_domains cb).1
            (parse_subgenes_and_domains cb).2 cid
          rw [hsd] at this
          exact TablesLE_trans h1 this
        split
        · rename_i e hmo
          have := insert_motifs_mono dbB (parse_motifs cb) cid
          rw [hmo] at this
          exact TablesLE_trans h2 this
        · rename_i dbC hmo
          have h3 : TablesLE db.committed dbC.committed := by
            have := insert_motifs_mono dbB (parse_motifs cb) cid
            rw [hmo] at this
            exact TablesLE_trans h2 this
          split
          · rename_i e hpl
            exact h3
          · rename_i rows hpl
            have := insert_ltrs_mono dbC rows cid
            exact TablesLE_trans h3 this

theorem processChains_mono (d : Doc) (runId : Nat) (cbs : List ChainBlock) :
    ∀ db : DB, TablesLE db.committed (resultDB (processChains d runId cbs db)).committed := by
  induction cbs with
  | nil => intro db; exact TablesLE_refl _
  | cons cb cbs ih =>
    intro db
    simp only [processChains]
    split
    · rename_i e hc
      have := processChain_mono db d runId cb
      rw [hc] at this
      exact this
    · rename_i db1 hc
      have h1 : TablesLE db.committed db1.committed := by
        have := processChain_mono db d runId cb
        rw [hc] at this
        exact this
      exact TablesLE_trans h1 (ih db1)

/-! Theorems settling the claims. -/

/-- C1: within one chain block, `parse_subgenes_and_domains` assigns subgene
positional indices 0, 1, ... in source order (reset per chain since the
counter is function-local), and `insert_subgenes_domains` then gives every
inserted domain row the persisted identifier of exactly the subgene it was
nested under in the source document: the i-th subgene receives the store's
identifier `db.nextId + i`, and every domain of that subgene receives that
same identifier as its foreign key, never a sibling's. -/
theorem domain_rows_link_direct_ancestor (cb : ChainBlock) (db : DB) (cid : Nat)
    (hf : db.failAt = none) (hp : db.pending = emptyTables) :
    (∀ i (h : i < (parse_subgenes_and_domains cb).1.length),
      (((parse_subgenes_and_domains cb).1).get ⟨i, h⟩).subgene_index = i) ∧
    ∃ db2, insert_subgenes_domains db (parse_subgenes_and_domains cb).1
        (parse_subgenes_and_domains cb).2 cid = .ok db2 ∧
      db2.committed.subgenes = db.committed.subgenes ++
        assignedSubgeneRows cid db.nextId (parse_subgenes_and_domains cb).1 ∧
      db2.committed.domains = db.committed.domains ++
        expectedDomainRowsAux db.nextId cb.subgenes := by
  simp only [parse_subgenes_and_domains]
  have hidx := parseSubgenesDomainsAux_fst_get cb.subgenes 0
  have hlen := parseSubgenesDomainsAux_fst_length cb.subgenes 0
  have hM : ∀ j, j < cb.subgenes.length →
      lookupIdx (revAssignMap db.nextId (parseSubgenesDomainsAux 0 cb.subgenes).1 [])
        (0 + j) = some (db.nextId + j) := by
    intro j hj
    exact lookupIdx_revAssignMap_get _ 0 db.nextId [] hidx j (by omega)
  have hres : ∀ d ∈ (parseSubgenesDomainsAux 0 cb.subgenes).2,
      (lookupIdx (revAssignMap db.nextId (parseSubgenesDomainsAux 0 cb.subgenes).1 [])
        d.subgene_index).isSome = true := by
    intro d hd
    obtain ⟨j, hj, hidxd⟩ := parseSubgenesDomainsAux_snd_mem cb.subgenes 0 d hd
    rw [hidxd, hM j hj]
    rfl
  refine ⟨fun i h => by simpa using hidx i h, _,
    insert_subgenes_domains_eq db _ _ cid hf hp hres, rfl, ?_⟩
  show db.committed.domains ++ _ = _
  rw [resolved_eq_expected cb.subgenes 0 db.nextId _ hM]

/-- C10: the subgene records of one `parse_subgenes_and_domains` call carry
exactly the indices 0 .. n-1 in source order, every domain record's
`subgene_index` is one of those indices, and consequently feeding the two
lists of one call into `insert_subgenes_domains` always resolves every
domain (the missing-key branch is unreachable): absent store failures the
call succeeds. -/
theorem parse_output_resolution_total (cb : ChainBlock) (db : DB) (cid : Nat)
    (hf : db.failAt = none) :
    (∀ i (h : i < (parse_subgenes_and_domains cb).1.length),
      (((parse_subgenes_and_domains cb).1).get ⟨i, h⟩).subgene_index = i) ∧
    (∀ d ∈ (parse_subgenes_and_domains cb).2,
      d.subgene_index < (parse_subgenes_and_domains cb).1.length) ∧
    exceptOk (insert_subgenes_domains db (parse_subgenes_and_domains cb).1
      (parse_subgenes_and_domains cb).2 cid) = true := by
  simp only [parse_subgenes_and_domains]
  have hidx := parseSubgenesDomainsAux_fst_get cb.subgenes 0
  have hlen := parseSubgenesDomainsAux_fst_length cb.subgenes 0
  refine ⟨fun i h => by simpa using hidx i h, ?_, ?_⟩
  · intro d hd
    obtain ⟨j, hj, hidxd⟩ := parseSubgenesDomainsAux_snd_mem cb.subgenes 0 d hd
    omega
  · apply insert_subgenes_domains_isOk db _ _ cid hf
    intro d hd
    obtain ⟨j, hj, hidxd⟩ := parseSubgenesDomainsAux_snd_mem cb.subgenes 0 d hd
    rw [hidxd, lookupIdx_revAssignMap_get _ 0 db.nextId [] hidx j (by omega)]
    rfl

/-- C4: whenever some domain in the batch references a positional index that
the subgene insertion never assigned, `insert_subgenes_domains` fails with
the resolution error (the KeyError of the index map — the spec's
ResolutionError), reporting an index no subgene of the batch carries. -/
theorem unassigned_index_raises_resolution_error (db : DB) (subs : List ParsedSubgene)
    (doms : List ParsedDomain) (cid : Nat) (hf : db.failAt = none)
    (hbad : ∃ d ∈ doms, ∀ s ∈ subs, s.subgene_index ≠ d.subgene_index) :
    ∃ idx db1, insert_subgenes_domains db subs doms cid =
      .error (.resolutionError idx, db1) ∧ ∀ s ∈ subs, s.subgene_index ≠ idx := by
  simp only [insert_subgenes_domains, insertSubgenesLoop_eq cid subs db [] hf]
  have hwit : ∃ d ∈ doms,
      lookupIdx (revAssignMap db.nextId subs []) d.subgene_index = none := by
    obtain ⟨d, hd, hne⟩ := hbad
    refine ⟨d, hd, ?_⟩
    rw [lookupIdx_revAssignMap_skip subs db.nextId [] d.subgene_index hne]
    rfl
  obtain ⟨idx, db1, hloop, hnone⟩ := insertDomainsLoop_err doms
    { committed := db.committed
      pending := { db.pending with
        subgenes := db.pending.subgenes ++ assignedSubgeneRows cid db.nextId subs }
      nextId := db.nextId + subs.length
      opCount := db.opCount + subs.length
      failAt := db.failAt }
    (revAssignMap db.nextId subs []) hf hwit
  refine ⟨idx, db1, by rw [hloop], ?_⟩
  intro s hs heq
  have : (lookupIdx (revAssignMap db.nextId subs []) idx).isSome = true :=
    lookupIdx_revAssignMap_isSome subs db.nextId [] idx (.inl ⟨s, hs, heq⟩)
  rw [hnone] at this
  simp at this

theorem parseSoloLtr_ok (e : SoloLtrSrc) :
    exceptOk (parseSoloLtr e) = soloLtrRequiredOk e := by
  unfold parseSoloLtr soloLtrRequiredOk
  cases e.init_idx <;> cases e.fin_idx <;> rfl

theorem parseFullLtr_ok (ci : Nat) (e : FullLtrSrc) :
    exceptOk (parseFullLtr ci e) = fullLtrRequiredOk e := by
  unfold parseFullLtr fullLtrRequiredOk
  cases e.init_idx <;> cases e.fin_idx <;> rfl

theorem parseSoloLtrs_ok (es : List SoloLtrSrc) :
    exceptOk (parseSoloLtrs es) = es.all soloLtrRequiredOk := by
  induction es with
  | nil => rfl
  | cons e es ih =>
    simp only [parseSoloLtrs, List.all_cons]
    rcases he : parseSoloLtr e with err | r
    · have : soloLtrRequiredOk e = false := by rw [← parseSoloLtr_ok, he]; rfl
      simp [this, exceptOk]
    · have : soloLtrRequiredOk e = true := by rw [← parseSoloLtr_ok, he]; rfl
      rcases hes : parseSoloLtrs es with err2 | rs <;>
        simp_all [exceptOk]

theorem parseFullLtrsOf_ok (ci : Nat) (es : List FullLtrSrc) :
    exceptOk (parseFullLtrsOf ci es) = es.all fullLtrRequiredOk := by
  induction es with
  | nil => rfl
  | cons e es ih =>
    simp only [parseFullLtrsOf, List.all_cons]
    rcases he : parseFullLtr ci e with err | r
    · have : fullLtrRequiredOk e = false := by rw [← parseFullLtr_ok ci, he]; rfl
      simp [this, exceptOk]
    · have : fullLtrRequiredOk e = true := by rw [← parseFullLtr_ok ci, he]; rfl
      rcases hes : parseFullLtrsOf ci es with err2 | rs <;>
        simp_all [exceptOk]

theorem parseChainsLtrs_ok (cbs : List ChainBlock) : ∀ ci,
    exceptOk (parseChainsLtrs ci cbs) = cbs.all (fun cb => cb.LTRs.all fullLtrRequiredOk) := by
  induction cbs with
  | nil => intro ci; rfl
  | cons cb cbs ih =>
    intro ci
    simp only [parseChainsLtrs, List.all_cons]
    rcases he : parseFullLtrsOf ci cb.LTRs with err | r
    · have h1 : cb.LTRs.all fullLtrRequiredOk = false := by rw [← parseFullLtrsOf_ok ci, he]; rfl
      simp [h1, exceptOk]
    · have h1 : cb.LTRs.all fullLtrRequiredOk = true := by rw [← parseFullLtrsOf_ok ci, he]; rfl
      have h3 := ih (ci + 1)
      rcases hes : parseChainsLtrs (ci + 1) cbs with err2 | rs <;>
        rw [hes] at h3 <;> simp only [exceptOk] at h3 ⊢ <;> simp [h1, ← h3]

theorem parse_ltrs_ok (d : Doc) :
    exceptOk (parse_ltrs d) = docLtrsRequiredOk d := by
  unfold parse_ltrs docLtrsRequiredOk
  rcases hs : parseSoloLtrs d.soloLTRs with err | solos
  · have : d.soloLTRs.all soloLtrRequiredOk = false := by rw [← parseSoloLtrs_ok, hs]; rfl
    simp [this, exceptOk]
  · have : d.soloLTRs.all soloLtrRequiredOk = true := by rw [← parseSoloLtrs_ok, hs]; rfl
    rcases hc : parseChainsLtrs 0 d.pseuGID with err2 | fulls
    · have h2 : d.pseuGID.all (fun cb => cb.LTRs.all fullLtrRequiredOk) = false := by
        rw [← parseChainsLtrs_ok, hc]; rfl
      simp [this, h2, exceptOk]
    · have h2 : d.pseuGID.all (fun cb => cb.LTRs.all fullLtrRequiredOk) = true := by
        rw [← parseChainsLtrs_ok, hc]; rfl
      simp [this, h2, exceptOk]

theorem extract_herv_chain_metadata_ok (cb : ChainBlock) :
    exceptOk (extract_herv_chain_metadata cb) = chainRequiredOk cb := by
  unfold extract_herv_chain_metadata chainRequiredOk
  cases cb.chain_level <;> cases cb.chain_start_idx <;> cases cb.chain_end_idx <;>
    cases cb.retrovirus_type <;> cases cb.score <;> cases cb.type_of_chain <;> rfl

/-- C6: `to_bool` returns a native boolean unchanged; a string normalizes to
true exactly when its lowercasing is yes, true or 1 (so Yes, yes, TRUE and 1
are true, while no and the empty string are false); an absent field (read
with a False default) normalizes to false; any other value is coerced via
truthiness, so numeric 0 is false. -/
theorem to_bool_normalization :
    (∀ b, to_bool (.pybool b) = b) ∧
    (∀ s, to_bool (.pystr s) =
      (pyLower s == "yes" || pyLower s == "true" || pyLower s == "1")) ∧
    to_bool (.pystr ("Yes")) = true ∧ to_bool (.pystr ("yes")) = true ∧
    to_bool (.pystr ("TRUE")) = true ∧ to_bool (.pystr ("1")) = true ∧
    to_bool (.pystr ("no")) = false ∧ to_bool (.pystr ("")) = false ∧
    to_bool_field none = false ∧
    (∀ n : Int, to_bool (.pyint n) = decide (n ≠ 0)) ∧
    to_bool (.pyint 0) = false ∧ to_bool .pynone = false :=
  ⟨fun _ => rfl, fun _ => rfl, by decide, by decide, by decide, by decide,
   by decide, by decide, by decide, fun _ => rfl, by decide, by decide⟩

/-- Two-digit zero-padded decimal rendering (day, hour, minute, second). -/
def pad2 (n : Nat) : List Char :=
  [Nat.digitChar (n / 10), Nat.digitChar (n % 10)]

/-- Four-digit zero-padded decimal rendering (year). -/
def pad4 (n : Nat) : List Char :=
  [Nat.digitChar (n / 1000), Nat.digitChar (n / 100 % 10),
   Nat.digitChar (n / 10 % 10), Nat.digitChar (n % 10)]

/-- A well-formed instance of the fixed textual format
`weekday month day HH:MM:SS GMT year`. -/
def renderFixed (w m d h mi s y : Nat) : String :=
  String.mk ((weekdayAbbrs.getD w "").data ++ ' ' :: (monthAbbrs.getD (m - 1) "").data ++
    ' ' :: pad2 d ++ ' ' :: pad2 h ++ ':' :: pad2 mi ++ ':' :: pad2 s ++
    ' ' :: 'G' :: 'M' :: 'T' :: ' ' :: pad4 y)

theorem digitChar_isDigit {k : Nat} (hk : k < 10) : (Nat.digitChar k).isDigit = true := by
  interval_cases k <;> rfl

theorem digitVal_digitChar {k : Nat} (hk : k < 10) : digitVal (Nat.digitChar k) = k := by
  interval_cases k <;> rfl

theorem isWs_digitChar {k : Nat} (hk : k < 10) : isWs (Nat.digitChar k) = false := by
  interval_cases k <;> rfl

theorem matchName_weekday (w : Nat) (hw : w < 7) (l : List Char) :
    matchName weekdayAbbrs ((weekdayAbbrs.getD w "").data ++ l) = some (w, l) := by
  interval_cases w <;> rfl

theorem matchName_month (m : Nat) (hm1 : 1 ≤ m) (hm2 : m ≤ 12) (l : List Char) :
    matchName monthAbbrs ((monthAbbrs.getD (m - 1) "").data ++ l) = some (m - 1, l) := by
  interval_cases m <;> rfl

theorem skipWs1_space_cons (c : Char) (l : List Char) (hc : isWs c = false) :
    skipWs1 (' ' :: c :: l) = some (c :: l) := by
  have h1 : isWs ' ' = true := rfl
  simp [skipWs1, h1, List.dropWhile, hc]

theorem skipWs1_space_month (m : Nat) (hm1 : 1 ≤ m) (hm2 : m ≤ 12) (l : List Char) :
    skipWs1 (' ' :: ((monthAbbrs.getD (m - 1) "").data ++ l)) =
      some ((monthAbbrs.getD (m - 1) "").data ++ l) := by
  interval_cases m <;> rfl

theorem skipWs1_space_pad2 (n : Nat) (hn : n < 100) (l : List Char) :
    skipWs1 (' ' :: (pad2 n ++ l)) = some (pad2 n ++ l) := by
  have : isWs (Nat.digitChar (n / 10)) = false := isWs_digitChar (by omega)
  simp only [pad2, List.cons_append]
  exact skipWs1_space_cons _ _ this

theorem skipWs1_space_pad4 (y : Nat) (hy : y < 10000) :
    skipWs1 (' ' :: pad4 y) = some (pad4 y) := by
  have : isWs (Nat.digitChar (y / 1000)) = false := isWs_digitChar (by omega)
  simp only [pad4]
  exact skipWs1_space_cons _ _ this

theorem parse1or2_pad2 (n : Nat) (hn : n < 100) (l : List Char) :
    parse1or2 (pad2 n ++ l) = some (n, l) := by
  have h1 : n / 10 < 10 := by omega
  have h2 : n % 10 < 10 := by omega
  simp only [pad2, List.cons_append, List.nil_append, parse1or2,
    digitChar_isDigit h1, digitChar_isDigit h2, if_true,
    digitVal_digitChar h1, digitVal_digitChar h2]
  have : n / 10 * 10 + n % 10 = n := by omega
  rw [this]

theorem parse4_pad4 (y : Nat) (hy : y < 10000) : parse4 (pad4 y) = some (y, []) := by
  have h1 : y / 1000 < 10 := by omega
  have h2 : y / 100 % 10 < 10 := by omega
  have h3 : y / 10 % 10 < 10 := by omega
  have h4 : y % 10 < 10 := by omega
  simp only [pad4, parse4, digitChar_isDigit h1, digitChar_isDigit h2,
    digitChar_isDigit h3, digitChar_isDigit h4, Bool.and_self, if_true,
    digitVal_digitChar h1, digitVal_digitChar h2, digitVal_digitChar h3,
    digitVal_digitChar h4]
  have : ((y / 1000 * 10 + y / 100 % 10) * 10 + y / 10 % 10) * 10 + y % 10 = y := by omega
  rw [this]

theorem expectChar_colon (l : List Char) : expectChar ':' (':' :: l) = some l := rfl

theorem skipWs1_space_gmt (l : List Char) :
    skipWs1 (' ' :: 'G' :: 'M' :: 'T' :: l) = some ('G' :: 'M' :: 'T' :: l) := rfl

theorem matchCI_gmt (l : List Char) :
    matchCI ['G', 'M', 'T'] ('G' :: 'M' :: 'T' :: l) = some l := rfl

theorem daysInMonth_le_31 (y m : Nat) : daysInMonth y m ≤ 31 := by
  unfold daysInMonth
  split
  · split <;> omega
  · split <;> omega

theorem strptimeFixed_render (w m d h mi s y : Nat) (hw : w < 7)
    (hm1 : 1 ≤ m) (hm2 : m ≤ 12) (hy1 : 1 ≤ y) (hy2 : y ≤ 9999)
    (hd1 : 1 ≤ d) (hd2 : d ≤ daysInMonth y m) (hh : h ≤ 23) (hmi : mi ≤ 59) (hs : s ≤ 59) :
    strptimeFixed (renderFixed w m d h mi s y) = some ⟨y, m, d, h, mi, s⟩ := by
  have hd100 : d < 100 := lt_of_le_of_lt (le_trans hd2 (daysInMonth_le_31 y m)) (by omega)
  have hh100 : h < 100 := by omega
  have hmi100 : mi < 100 := by omega
  have hs100 : s < 100 := by omega
  have hy10000 : y < 10000 := by omega
  have hm : m - 1 + 1 = m := by omega
  simp only [strptimeFixed, parseWdMonDay, parseClock, parseGmtYear, renderFixed,
    List.append_assoc, List.cons_append]
  rw [matchName_weekday w hw]
  simp only [Option.bind]
  rw [skipWs1_space_month m hm1 hm2]
  simp only [Option.bind]
  rw [matchName_month m hm1 hm2]
  simp only [Option.bind]
  rw [skipWs1_space_pad2 d hd100]
  simp only [Option.bind]
  rw [parse1or2_pad2 d hd100]
  simp only [Option.bind]
  rw [skipWs1_space_pad2 h hh100]
  simp only [Option.bind]
  rw [parse1or2_pad2 h hh100]
  simp only [Option.bind]
  rw [expectChar_colon]
  simp only [Option.bind]
  rw [parse1or2_pad2 mi hmi100]
  simp only [Option.bind]
  rw [expectChar_colon]
  simp only [Option.bind]
  rw [parse1or2_pad2 s hs100]
  simp only [Option.bind]
  rw [skipWs1_space_gmt]
  simp only [Option.bind]
  rw [matchCI_gmt]
  simp only [Option.bind]
  rw [skipWs1_space_pad4 y hy10000]
  simp only [Option.bind]
  rw [parse4_pad4 y hy10000]
  simp only [Option.bind, hm]
  rw [if_pos]
  exact ⟨trivial, hy1, hy2, hd1, hd2, hh, hmi, hs⟩

/-- A solo LTR entry whose required indices are present and every optional
field is absent. -/
def soloMinimal : SoloLtrSrc :=
  ⟨none, none, some 1, some 2, none, none, none, none, none, none, none, none,
   none, none, none, none, none, none, none, none, none, none, none, none⟩

/-- C5: every entity mapper substitutes the explicit defaults (0, empty
string, false, or absent) for optional fields the source omits, and the
fallible mappers fail only on a missing required field, never on a missing
optional one: their success equals the presence of the required fields. -/
theorem optional_fields_defaulted :
    parse_run_metadata emptyHeader emptyFooter =
      { executer := none, dna_file := none, selected := none, database := none,
        execution_duration := 0, selection_threshold := 0, input_file := "",
        improve_hits_max := 0, conservation_factor := 0, subgene_hits_max := 0,
        script_path := "", max_subgene_skip := 0, strand := "", sdfactor := false,
        broken_passes := 0, fit_puteins := none, broken_penalty := 0,
        final_selection_threshold := 0, keep_threshold := 0, frame_factor := 0,
        length_bonus := 0, orfid_min_score := 0, make_chains_files := "",
        debugging := none, script_input := "", run_datetime := none,
        retrotector_version := "", db_name := "", db_last_modified_datetime := none } ∧
    parseSoloLtr soloMinimal =
      .ok (none,
        { is_primary := false, ltr_type := some ("solo"), factor_score := none,
          virus_genus := none, peak_loc := none, init_idx := 1, fin_idx := 2,
          adenylation_loc := none, adenylation_seq := none, u5nn_score := none,
          u5nn_idx := none, gtmodifier_score := none, u3nn_score := none,
          u3nn_idx := none, tataa_score := none, tataa_idx := none,
          meme50_score := none, meme50_idx := none, motifs1_score := none,
          motifs1_idx := none, motifs2_score := none, motifs2_idx := none,
          transsites_score := none, cpgmodifier_score := none,
          spl8modifier_score := none, limiters := none, tsd5 := none, tsd3 := none,
          similarity_start := none, similarity_end := none }) ∧
    (∀ e, exceptOk (parseSoloLtr e) = soloLtrRequiredOk e) ∧
    (∀ ci e, exceptOk (parseFullLtr ci e) = fullLtrRequiredOk e) ∧
    (∀ d, exceptOk (parse_ltrs d) = docLtrsRequiredOk d) ∧
    (∀ cb, exceptOk (extract_herv_chain_metadata cb) = chainRequiredOk cb) :=
  ⟨rfl, rfl, parseSoloLtr_ok, parseFullLtr_ok, parse_ltrs_ok, extract_herv_chain_metadata_ok⟩

theorem parse_output_hres (cb : ChainBlock) (base : Nat) :
    ∀ d ∈ (parse_subgenes_and_domains cb).2,
      (lookupIdx (revAssignMap base (parse_subgenes_and_domains cb).1 [])
        d.subgene_index).isSome = true := by
  simp only [parse_subgenes_and_domains]
  intro d hd
  obtain ⟨j, hj, hidxd⟩ := parseSubgenesDomainsAux_snd_mem cb.subgenes 0 d hd
  rw [hidxd, lookupIdx_revAssignMap_get _ 0 base []
    (parseSubgenesDomainsAux_fst_get cb.subgenes 0) j
    (by rw [parseSubgenesDomainsAux_fst_length]; omega)]
  rfl

theorem processChain_eq (db : DB) (d : Doc) (runId : Nat) (cb : ChainBlock)
    (hf : db.failAt = none) (hp : db.pending = emptyTables)
    (hcb : chainRequiredOk cb = true)
    (ltrRows : List (Option Nat × LtrRow)) (hltr : parse_ltrs d = .ok ltrRows) :
    ∃ db1, processChain db d runId cb = .ok db1 ∧
      db1.committed.herv_chain.map Prod.fst =
        db.committed.herv_chain.map Prod.fst ++ [db.nextId] ∧
      db1.committed.ltr = db.committed.ltr ++ ltrRows.map (fun r => (db.nextId, r.2)) ∧
      db1.pending = emptyTables ∧ db1.failAt = none ∧ db.nextId < db1.nextId := by
  obtain ⟨meta, hmeta⟩ : ∃ meta, extract_herv_chain_metadata cb = .ok meta := by
    have hok := extract_herv_chain_metadata_ok cb
    rw [hcb] at hok
    cases hx : extract_herv_chain_metadata cb with
    | error e => rw [hx] at hok; exact absurd hok (by simp [exceptOk])
    | ok meta => exact ⟨meta, rfl⟩
  simp only [processChain, hmeta, insert_herv_chain_eq db meta runId hf hp]
  rw [insert_subgenes_domains_eq]
  · dsimp only
    rw [insert_motifs_eq]
    · dsimp only
      rw [hltr]
      dsimp only
      rw [insert_ltrs_eq]
      · refine ⟨_, rfl, ?_, ?_, rfl, rfl, ?_⟩
        · simp
        · simp
        · simp
          omega
      · rfl
      · rfl
    · rfl
    · rfl
  · rfl
  · rfl
  · exact parse_output_hres cb _

theorem processChains_eq (d : Doc) (runId : Nat) (ltrRows : List (Option Nat × LtrRow))
    (hltr : parse_ltrs d = .ok ltrRows) :
    ∀ (cbs : List ChainBlock) (db : DB), db.failAt = none → db.pending = emptyTables →
    (∀ cb ∈ cbs, chainRequiredOk cb = true) →
    ∃ db1 ids, processChains d runId cbs db = .ok db1 ∧
      ids.length = cbs.length ∧
      (∀ i ∈ ids, db.nextId ≤ i) ∧
      ids.Pairwise (· < ·) ∧
      db1.committed.herv_chain.map Prod.fst =
        db.committed.herv_chain.map Prod.fst ++ ids ∧
      db1.committed.ltr = db.committed.ltr ++ ltrCopies ltrRows ids ∧
      db1.pending = emptyTables ∧ db1.failAt = none ∧ db.nextId ≤ db1.nextId := by
  intro cbs
  induction cbs with
  | nil =>
    intro db hf hp _
    exact ⟨db, [], rfl, rfl, by simp, List.Pairwise.nil, by simp, by simp [ltrCopies],
      hp, hf, Nat.le_refl _⟩
  | cons cb cbs ih =>
    intro db hf hp hreq
    obtain ⟨dbA, hchain, hherv, hltrT, hpA, hfA, hlt⟩ :=
      processChain_eq db d runId cb hf hp (hreq cb (List.mem_cons_self cb cbs)) ltrRows hltr
    simp only [processChains, hchain]
    obtain ⟨db1, ids, hrec, hlen, hbound, hpw, hhervR, hltrR, hpR, hfR, hle⟩ :=
      ih dbA hfA hpA (fun cb1 h1 => hreq cb1 (List.mem_cons_of_mem cb h1))
    refine ⟨db1, db.nextId :: ids, hrec, by simp [hlen], ?_, ?_, ?_, ?_, hpR, hfR, by omega⟩
    · intro i hi
      rcases List.mem_cons.mp hi with rfl | hi
      · exact Nat.le_refl _
      · have := hbound i hi
        omega
    · rw [List.pairwise_cons]
      exact ⟨fun i hi => by have := hbound i hi; omega, hpw⟩
    · rw [hhervR, hherv]
      simp
    · rw [hltrR, hltrT]
      simp only [ltrCopies]
      rw [List.append_assoc]

/-- A sample domain object. -/
def domainSample : DomainSrc :=
  ⟨some 1, some ("RT"), none, some 5, none, some 0, some 10, some 20, none, none, some 30⟩

/-- A sample subgene with one domain. -/
def subgeneSample1 : SubgeneSrc := ⟨some ("gag"), some ("sg"), some 7, some 3, [domainSample]⟩

/-- A sample subgene with no domains. -/
def subgeneSample2 : SubgeneSrc := ⟨some ("pol"), none, none, none, []⟩

/-- A sample chain block with two subgenes, the first carrying one domain. -/
def chainSample : ChainBlock :=
  ⟨some 1, some 100, some 200, some ("HERV"), some 9, some ("chain"), none,
   [subgeneSample1, subgeneSample2], [], [], [], [], []⟩

/-- Witness for C1: the two-subgene sample chain block loads with the first
subgene's domain linked to the first subgene's generated identifier. -/
theorem domain_rows_link_direct_ancestor_witness :
    (∀ i (h : i < (parse_subgenes_and_domains chainSample).1.length),
      (((parse_subgenes_and_domains chainSample).1).get ⟨i, h⟩).subgene_index = i) ∧
    ∃ db2, insert_subgenes_domains (initDB none)
        (parse_subgenes_and_domains chainSample).1
        (parse_subgenes_and_domains chainSample).2 42 = .ok db2 ∧
      db2.committed.subgenes = (initDB none).committed.subgenes ++
        assignedSubgeneRows 42 (initDB none).nextId
          (parse_subgenes_and_domains chainSample).1 ∧
      db2.committed.domains = (initDB none).committed.domains ++
        expectedDomainRowsAux (initDB none).nextId chainSample.subgenes :=
  domain_rows_link_direct_ancestor chainSample (initDB none) 42 rfl rfl

/-- Witness for C10: on the sample chain block, the parsed indices are 0 and
1, every domain references one of them, and the insertion succeeds. -/
theorem parse_output_resolution_total_witness :
    (∀ i (h : i < (parse_subgenes_and_domains chainSample).1.length),
      (((parse_subgenes_and_domains chainSample).1).get ⟨i, h⟩).subgene_index = i) ∧
    (∀ d ∈ (parse_subgenes_and_domains chainSample).2,
      d.subgene_index < (parse_subgenes_and_domains chainSample).1.length) ∧
    exceptOk (insert_subgenes_domains (initDB none)
      (parse_subgenes_and_domains chainSample).1
      (parse_subgenes_and_domains chainSample).2 7) = true :=
  parse_output_resolution_total chainSample (initDB none) 7 rfl

/-- A one-subgene batch whose only assigned positional index is 0. -/
def subsSample : List ParsedSubgene := [⟨0, some ("gag"), none, none, none⟩]

/-- A domain batch referencing the never-assigned positional index 3. -/
def domsSample : List ParsedDomain :=
  [⟨3, none, none, none, none, none, none, none, none, none, none, none⟩]

/-- Witness for C4: a domain referencing the unassigned index 3 makes the
batch fail with the resolution error. -/
theorem unassigned_index_raises_resolution_error_witness :
    ∃ idx db1, insert_subgenes_domains (initDB none) subsSample domsSample 9 =
      .error (.resolutionError idx, db1) ∧ ∀ s ∈ subsSample, s.subgene_index ≠ idx :=
  unassigned_index_raises_resolution_error (initDB none) subsSample domsSample 9 rfl
    (by decide)

/-- C2: on a successful load, the orchestrator re-parses the whole document's
LTR set on every chain iteration and inserts all of it linked to the current
chain's generated identifier: with n chain blocks, the ltr table receives n
copies of the complete set (`ltrCopies`), one per distinct chain identifier,
in chain order. -/
theorem ltr_full_set_inserted_per_chain (d : Doc) (db : DB)
    (ltrRows : List (Option Nat × LtrRow))
    (hf : db.failAt = none) (hp : db.pending = emptyTables)
    (hreq : ∀ cb ∈ d.pseuGID, chainRequiredOk cb = true)
    (hltr : parse_ltrs d = .ok ltrRows) :
    ∃ db1 ids, parse_and_load_retroctector d db = .ok db1 ∧
      ids.length = d.pseuGID.length ∧
      ids.Pairwise (· ≠ ·) ∧
      db1.committed.herv_chain.map Prod.fst =
        db.committed.herv_chain.map Prod.fst ++ ids ∧
      db1.committed.ltr = db.committed.ltr ++ ltrCopies ltrRows ids := by
  simp only [parse_and_load_retroctector,
    insert_run_metadata_eq db (parse_run_metadata d.header d.footer) hf hp]
  obtain ⟨db1, ids, hrec, hlen, hbound, hpw, hherv, hltrT, hpR, hfR, hle⟩ :=
    processChains_eq d db.nextId ltrRows hltr d.pseuGID
      { committed := { db.committed with
          run_metadata := db.committed.run_metadata ++
            [(db.nextId, parse_run_metadata d.header d.footer)] }
        pending := emptyTables
        nextId := db.nextId + 1
        opCount := db.opCount + 1
        failAt := none }
      rfl rfl hreq
  exact ⟨db1, ids, hrec, hlen, hpw.imp Nat.ne_of_lt, hherv, hltrT⟩

/-- A well-formed chain block carrying its required metadata fields and no
nested entities. -/
def chainGood : ChainBlock :=
  ⟨some 1, some 10, some 20, some ("HML2"), some 5, some ("P"), none,
   [], [], [], [], [], []⟩

/-- The ltr-table row the minimal solo LTR entry parses to. -/
def soloMinRow : LtrRow :=
  ⟨false, some ("solo"), none, none, none, 1, 2, none, none, none, none, none,
   none, none, none, none, none, none, none, none, none, none, none, none, none,
   none, none, none, none, none⟩

/-- A document with one solo LTR and two chain blocks. -/
def docTwoChains : Doc :=
  ⟨emptyHeader, emptyFooter, [soloMinimal], [chainGood, chainGood]⟩

/-- Witness for C2: loading a document with one solo LTR and two chain blocks
inserts two copies of the complete LTR set, attached to the two distinct
chain identifiers. -/
theorem ltr_full_set_inserted_per_chain_witness :
    ∃ db1 ids, parse_and_load_retroctector docTwoChains (initDB none) = .ok db1 ∧
      ids.length = docTwoChains.pseuGID.length ∧
      ids.Pairwise (· ≠ ·) ∧
      db1.committed.herv_chain.map Prod.fst =
        (initDB none).committed.herv_chain.map Prod.fst ++ ids ∧
      db1.committed.ltr = (initDB none).committed.ltr ++
        ltrCopies [(none, soloMinRow)] ids :=
  ltr_full_set_inserted_per_chain docTwoChains (initDB none) [(none, soloMinRow)]
    rfl rfl (by decide) rfl

/-- A chain block with every field absent and no nested entities, whose
chain-metadata extraction raises. -/
def chainBad : ChainBlock :=
  ⟨none, none, none, none, none, none, none, [], [], [], [], [], []⟩

/-- C3: the load commits per logical grouping and batches atomically:
the run insert commits its row at once; a failing subgene/domain batch
commits none of its rows (the connection's durable tables are exactly what
they were); a succeeding subgene/domain batch and a succeeding motif batch
each end committed (no uncommitted work remains) with the durable tables
only extended; and a failure while processing one chain leaves every
previously committed row in place — the durable tables before the failing
chain are a prefix of the durable tables after it. -/
theorem commit_per_logical_grouping :
    (∀ (db : DB) (md : RunMetadata), db.failAt = none → db.pending = emptyTables →
      ∃ db1, insert_run_metadata db md = .ok (db.nextId, db1) ∧
        db1.committed.run_metadata = db.committed.run_metadata ++ [(db.nextId, md)] ∧
        db1.pending = emptyTables) ∧
    (∀ (db : DB) subs doms cid (e : PyExc) (db1 : DB),
      insert_subgenes_domains db subs doms cid = .error (e, db1) →
      db1.committed = db.committed) ∧
    (∀ (db : DB) subs doms cid (db1 : DB),
      insert_subgenes_domains db subs doms cid = .ok db1 →
      db1.pending = emptyTables ∧ TablesLE db.committed db1.committed) ∧
    (∀ (db : DB) ms cid (db1 : DB), insert_motifs db ms cid = .ok db1 →
      db1.pending = emptyTables ∧ TablesLE db.committed db1.committed) ∧
    (∀ (d : Doc) (runId : Nat) cbs (db : DB) (e : PyExc) (db1 : DB),
      processChains d runId cbs db = .error (e, db1) →
      TablesLE db.committed db1.committed) := by
  refine ⟨?_, insert_subgenes_domains_err_committed, insert_subgenes_domains_ok_state,
    insert_motifs_ok_state, ?_⟩
  · intro db md hf hp
    exact ⟨_, insert_run_metadata_eq db md hf hp, rfl, rfl⟩
  · intro d runId cbs db e db1 h
    have := processChains_mono d runId cbs db
    rw [h] at this
    exact this

/-- Witness for C3: one concrete instance of each conjunct — a committed run
insert on a fresh store, a store failure aborting a batch without committing
it, an empty batch and an empty motif list committing cleanly, and a chain
loop failing on a malformed chain block while prior durable rows survive. -/
theorem commit_per_logical_grouping_witness :
    (∃ db1, insert_run_metadata (initDB none) (parse_run_metadata emptyHeader emptyFooter) =
        .ok ((initDB none).nextId, db1) ∧
      db1.committed.run_metadata = (initDB none).committed.run_metadata ++
        [((initDB none).nextId, parse_run_metadata emptyHeader emptyFooter)] ∧
      db1.pending = emptyTables) ∧
    (∃ e db1, insert_subgenes_domains (initDB (some 0)) [⟨0, none, none, none, none⟩] [] 1 =
        .error (e, db1) ∧ db1.committed = (initDB (some 0)).committed) ∧
    (∃ db1, insert_subgenes_domains (initDB none) [] [] 3 = .ok db1 ∧
      db1.pending = emptyTables ∧ TablesLE (initDB none).committed db1.committed) ∧
    (∃ db1, insert_motifs (initDB none) [] 2 = .ok db1 ∧
      db1.pending = emptyTables ∧ TablesLE (initDB none).committed db1.committed) ∧
    (∃ e db1, processChains emptyDoc 0 [chainBad] (initDB none) = .error (e, db1) ∧
      TablesLE (initDB none).committed db1.committed) :=
  ⟨commit_per_logical_grouping.1 (initDB none) (parse_run_metadata emptyHeader emptyFooter)
      rfl rfl,
   ⟨.storeError, initDB (some 0), rfl,
    commit_per_logical_grouping.2.1 (initDB (some 0)) [⟨0, none, none, none, none⟩] [] 1
      .storeError (initDB (some 0)) rfl⟩,
   ⟨_, rfl, commit_per_logical_grouping.2.2.1 (initDB none) [] [] 3 _ rfl⟩,
   ⟨_, rfl, commit_per_logical_grouping.2.2.2.1 (initDB none) [] 2 _ rfl⟩,
   ⟨.keyError ("chain_level"), initDB none, rfl,
    commit_per_logical_grouping.2.2.2.2 emptyDoc 0 [chainBad] (initDB none)
      (.keyError ("chain_level")) (initDB none) rfl⟩⟩

/-- C9 (code bug): the `main` of the source cannot behave as claimed. The
module itself has a syntax error (the port entry of `conn_params` has no
value), and even with that fixed, `conn` is a local name only bound by the
connect call: when argument parsing raises SystemExit (not an Exception, so
never caught) or when connecting raises, the `finally` block's `if conn:`
raises UnboundLocalError, which escapes the process uncaught instead of
being swallowed into the single printed error line. The success path does
print its lines and close the connection. -/
theorem main_uncaught_on_early_failure :
    mainModel ⟨true, false, true, emptyDoc, none⟩ =
      ⟨[.loadingLine, .errorLine], some .unboundLocalConn, false⟩ ∧
    mainModel ⟨false, true, true, emptyDoc, none⟩ =
      ⟨[], some .unboundLocalConn, false⟩ ∧
    mainModel ⟨true, true, true, emptyDoc, none⟩ =
      ⟨[.loadingLine, .connectedLine, .closedLine], none, true⟩ :=
  ⟨rfl, rfl, rfl⟩

/-- C7: `parse_datetime` maps every well-formed string of the fixed format
`weekday month day HH:MM:SS GMT year` to the corresponding calendar instant,
and yields the absent value None rather than raising for a missing input and
for every input the library call fails on. -/
theorem parse_datetime_fixed_format :
    (∀ w m d h mi s y, w < 7 → 1 ≤ m → m ≤ 12 → 1 ≤ y → y ≤ 9999 → 1 ≤ d →
      d ≤ daysInMonth y m → h ≤ 23 → mi ≤ 59 → s ≤ 59 →
      parse_datetime (some (renderFixed w m d h mi s y)) = some ⟨y, m, d, h, mi, s⟩) ∧
    parse_datetime none = none ∧
    (∀ v, strptimeExc v = .error () → parse_datetime v = none) := by
  refine ⟨?_, rfl, ?_⟩
  · intro w m d h mi s y hw hm1 hm2 hy1 hy2 hd1 hd2 hh hmi hs
    simp only [parse_datetime, strptimeExc,
      strptimeFixed_render w m d h mi s y hw hm1 hm2 hy1 hy2 hd1 hd2 hh hmi hs]
  · intro v hv
    simp only [parse_datetime, hv]

/-- Witness for C7: the spec's own example string is well-formed and parses
to the corresponding instant. -/
theorem parse_datetime_fixed_format_witness :
    renderFixed 0 8 4 4 51 37 2025 = "Mon Aug 04 04:51:37 GMT 2025" ∧
    parse_datetime (some (renderFixed 0 8 4 4 51 37 2025)) = some ⟨2025, 8, 4, 4, 51, 37⟩ :=
  ⟨by decide, parse_datetime_fixed_format.1 0 8 4 4 51 37 2025 (by decide) (by decide)
    (by decide) (by decide) (by decide) (by decide) (by decide) (by decide) (by decide)
    (by decide)⟩

/-- C8: `parse_motifs` returns one flat list grouped by category in the fixed
order Slippery, PseudoKnot, SpliceAcceptor, SpliceDonor, keeping source order
inside each category and tagging every entry with its category. -/
theorem parse_motifs_grouped_fixed_order (cb : ChainBlock) :
    parse_motifs cb =
      cb.Slippery_motifs.map (motifRowOf ("Slippery")) ++
      cb.PseudoKnot_motifs.map (motifRowOf ("PseudoKnot")) ++
      cb.SpliceAcceptor_motifs.map (motifRowOf ("SpliceAcceptor")) ++
      cb.SpliceDonor_motifs.map (motifRowOf ("SpliceDonor")) := by
  simp [parse_motifs, motif_types, parseMotifsLoop, motifListFor, List.append_assoc]

end Retrotector
